import Mathlib

/-!
Verification of the address-resolution engine of the UFOTRAC repository
(`src/app/api/geocode/route.ts`, plus the query construction in
`src/app/ClientPage.tsx`).

The TypeScript source is shallowly embedded below:

* JavaScript strings are Lean `String`s (ASCII-faithful: `toLowerCase`,
  `toUpperCase` and the regexes of the source only act on ASCII data).
* `string | undefined | null` fields are `Option String`; JavaScript
  truthiness for such a value is `truthy` (`none` and `""` are falsy).
* JSON numbers are `JNum`: an integer numerator over a positive integer
  denominator, not necessarily reduced.  Every IEEE-754 double (hence
  every JavaScript number the source can hold) is exactly such a
  fraction, and the only arithmetic the source performs on coordinates
  (`Math.round(x * 1e4)`) is exact on it.  A field that holds
  `number | undefined`, or a value produced by `Number(...)` (which can
  be `NaN`), is `Option JNum` with `none` for "not a finite number".
* External HTTP calls are a `World`: one function per provider, from the
  query string and optional bias point to a `Fetched` outcome
  (`ok parsed` for an HTTP success — with `parsed = none` when
  `r.json()` fails, matching the `.catch(() => null)` in the source —
  `notOk` for a non-success status, and `thrown msg` for a rejected
  fetch, whose exception carries the message `msg`).
* API keys read from the process environment are an `Env` of three
  booleans (truthiness of the credential).
-/

/-- JavaScript truthiness of a `string | undefined | null` value. -/
def truthy (o : Option String) : Bool :=
  match o with
  | none => false
  | some s => !s.isEmpty

/-- `a || b` on strings: `a` when truthy, else `b`. -/
def jsOrStr (a b : String) : String := if a.isEmpty then b else a

/-- `a || b` where `a : string | undefined` and `b : string`. -/
def jsOr (a : Option String) (b : String) : String := jsOrStr (a.getD "") b

/-- `a || b` where both sides are `string | undefined` (keeps the last
value, possibly falsy, when every earlier one is falsy — exactly the
JavaScript `||` chain). -/
def jsOrO (a b : Option String) : Option String := if truthy a then a else b

/-- The characters matched by JavaScript `\s` (the ones that can occur in
ASCII/Latin-1 data: space, tab, newline, carriage return, vertical tab,
form feed, no-break space). -/
def wsChar (c : Char) : Bool :=
  c = ' ' || c = Char.ofNat 9 || c = Char.ofNat 10 || c = Char.ofNat 13 ||
  c = Char.ofNat 11 || c = Char.ofNat 12 || c = Char.ofNat 160

/-- The character class `[\s,.'-]` of `norm` in the source. -/
def sepChar (c : Char) : Bool :=
  wsChar c || c = ',' || c = '.' || c = Char.ofNat 39 || c = '-'

/-- Replace every maximal run of `sepChar`s by a single space
(the `replace(/[\s,.'-]+/g, ' ')` of the source); `prevSep` records
whether the previous character belonged to a run. -/
def collapseSeps (prevSep : Bool) : List Char → List Char
  | [] => []
  | c :: rest =>
    if sepChar c then
      if prevSep then collapseSeps true rest
      else ' ' :: collapseSeps true rest
    else c :: collapseSeps false rest

/-- Drop leading and trailing spaces (after `collapseSeps` the only
whitespace left is the plain space). -/
def trimSpaces (l : List Char) : List Char :=
  ((l.dropWhile (· = ' ')).reverse.dropWhile (· = ' ')).reverse

/-- JavaScript `String.prototype.trim` (drops `\s` at both ends). -/
def jsTrim (s : String) : String :=
  String.mk (((s.data.dropWhile wsChar).reverse.dropWhile wsChar).reverse)

/-- Character-wise `toLowerCase` (ASCII). -/
def lowerS (s : String) : String := String.mk (s.data.map Char.toLower)

/-- Character-wise `toUpperCase` (ASCII). -/
def upperS (s : String) : String := String.mk (s.data.map Char.toUpper)

/-- `norm` of the source: `(s || '').toLowerCase().replace(/[\s,.'-]+/g, ' ').trim()`. -/
def normS (s : String) : String :=
  String.mk (trimSpaces (collapseSeps false (s.data.map Char.toLower)))

/-- `norm` applied to a `string | undefined | null` field. -/
def normO (o : Option String) : String := normS (o.getD "")

/-- `needle` occurs contiguously at the start of `hay`. -/
def ledBy : List Char → List Char → Bool
  | [], _ => true
  | _ :: _, [] => false
  | a :: as_, b :: bs => a == b && ledBy as_ bs

/-- JavaScript `hay.includes(needle)`: `needle` occurs contiguously in `hay`. -/
def containsL (needle hay : List Char) : Bool :=
  ledBy needle hay ||
    match hay with
    | [] => false
    | _ :: rest => containsL needle rest

/-- JavaScript `hay.includes(needle)` on strings. -/
def containsS (needle hay : String) : Bool := containsL needle.data hay.data

/-- JavaScript `s.startsWith(pre)`. -/
def startsS (pre s : String) : Bool := ledBy pre.data s.data

/-- JavaScript `s.split(sep)` for a single-character separator. -/
def splitOnCharAux (sep : Char) (cur : List Char) : List Char → List (List Char)
  | [] => [cur.reverse]
  | c :: rest =>
    if c = sep then cur.reverse :: splitOnCharAux sep [] rest
    else splitOnCharAux sep (c :: cur) rest

/-- JavaScript `s.split(sep)` (single-character separator) on strings. -/
def splitOnChar (sep : Char) (s : String) : List String :=
  (splitOnCharAux sep [] s.data).map String.mk

/-- JavaScript `parts.join(sep)`. -/
def joinSep (sep : String) : List String → String
  | [] => ""
  | [x] => x
  | x :: y :: rest => x ++ sep ++ joinSep sep (y :: rest)

/-- `e.split(' ').filter(Boolean)`: the maximal space-free runs of `e`
(splitting on each single space and dropping empty parts collapses
consecutive separators, which is exactly run-splitting). `cur` holds the
reversed current run. -/
def splitTokensAux (cur : List Char) : List Char → List (List Char)
  | [] => if cur.isEmpty then [] else [cur.reverse]
  | c :: rest =>
    if c = ' ' then
      if cur.isEmpty then splitTokensAux [] rest
      else cur.reverse :: splitTokensAux [] rest
    else splitTokensAux (c :: cur) rest

/-- The whitespace tokens of a (normalized) string. -/
def splitTokens (s : String) : List (List Char) := splitTokensAux [] s.data

/-- The `US_STATES` table of the source (code, full name). -/
def usStatePairs : List (String × String) :=
  [("AL", "Alabama"), ("AK", "Alaska"), ("AZ", "Arizona"), ("AR", "Arkansas"),
   ("CA", "California"), ("CO", "Colorado"), ("CT", "Connecticut"),
   ("DC", "District of Columbia"), ("DE", "Delaware"), ("FL", "Florida"),
   ("GA", "Georgia"), ("HI", "Hawaii"), ("IA", "Iowa"), ("ID", "Idaho"),
   ("IL", "Illinois"), ("IN", "Indiana"), ("KS", "Kansas"), ("KY", "Kentucky"),
   ("LA", "Louisiana"), ("MA", "Massachusetts"), ("MD", "Maryland"),
   ("ME", "Maine"), ("MI", "Michigan"), ("MN", "Minnesota"), ("MO", "Missouri"),
   ("MS", "Mississippi"), ("MT", "Montana"), ("NC", "North Carolina"),
   ("ND", "North Dakota"), ("NE", "Nebraska"), ("NH", "New Hampshire"),
   ("NJ", "New Jersey"), ("NM", "New Mexico"), ("NV", "Nevada"),
   ("NY", "New York"), ("OH", "Ohio"), ("OK", "Oklahoma"), ("OR", "Oregon"),
   ("PA", "Pennsylvania"), ("RI", "Rhode Island"), ("SC", "South Carolina"),
   ("SD", "South Dakota"), ("TN", "Tennessee"), ("TX", "Texas"),
   ("UT", "Utah"), ("VA", "Virginia"), ("VT", "Vermont"), ("WA", "Washington"),
   ("WI", "Wisconsin"), ("WV", "West Virginia"), ("WY", "Wyoming")]

/-- `US_STATES[code]` (an absent key is `undefined`). -/
def US_STATES (code : String) : Option String :=
  (usStatePairs.find? (fun p => p.1 == code)).map (fun p => p.2)

/-- `STATE_NAMES_TO_CODE[nameLower]` — the reverse table built from
`US_STATES` by lowercasing each full name. -/
def STATE_NAMES_TO_CODE (nameLower : String) : Option String :=
  (usStatePairs.find? (fun p => lowerS p.2 == nameLower)).map (fun p => p.1)

/-- `inUS` of the source: the country code, lowercased, is `us` or `usa`. -/
def inUS (code : Option String) : Bool :=
  let c := lowerS (code.getD "")
  c == "us" || c == "usa"

/-- `sameState(foundName, foundCode, expect)` of the source. -/
def sameState (foundName foundCode expect : Option String) : Bool :=
  if !truthy expect then true
  else
    let ex := expect.getD ""
    let e := upperS ex
    let eName := jsOr (US_STATES e) ex
    let eNormName := normS eName
    let fCode := upperS (foundCode.getD "")
    let fName := normO foundName
    (!fCode.isEmpty && e.length == 2 && fCode == e) ||
      (!fName.isEmpty && fName == eNormName)

/-- `cityTokensMatch(foundCity, expect)` of the source. -/
def cityTokensMatch (foundCity expect : Option String) : Bool :=
  if !truthy expect then true
  else
    let f := normO foundCity
    let e := normO expect
    if f.isEmpty || e.isEmpty then false
    else (splitTokens e).all (fun w => containsL w f.data)

/-- The canonical locality record extracted from a provider response
(`{ city?, state?, state_code?, country_code? }`). -/
structure MetaRec where
  city : Option String
  state : Option String
  state_code : Option String
  country_code : Option String
deriving DecidableEq, Repr

/-- `acceptHit(meta, expectCity, expectState)` of the source.  (The
source passes `expectState || null` / `expectCity || null` to the two
helpers; both helpers already treat a falsy expectation as absent, so the
coercion is the identity here.) -/
def acceptHit (meta : MetaRec) (expectCity expectState : Option String) : Bool :=
  if truthy expectState && !inUS meta.country_code then false
  else if !sameState meta.state meta.state_code expectState then false
  else if !cityTokensMatch meta.city expectCity then false
  else true

/-! ### The locality-filter claim, formalised from the spec's words

`acceptSpecC1` renders claim C1 verbatim: clause (a) — when a region is
expected the country must be the supported country (US); clause (b) —
when a region is expected the hit's region must match by two-letter code
case-insensitively or by full (table-resolved) name after normalization;
clause (c) — when a city is expected every whitespace token of the
normalized expected city must occur in the hit's normalized city; an
absent (falsy) expectation imposes no constraint. -/

/-- Clause (b) of claim C1: region match by code or by normalized full name. -/
def specRegionMatch (meta : MetaRec) (es : String) : Bool :=
  let e := upperS es
  let eName := jsOr (US_STATES e) es
  (e.length == 2 && upperS (meta.state_code.getD "") == e) ||
    (!(normO meta.state).isEmpty && normO meta.state == normS eName)

/-- Clause (c) of claim C1, verbatim: every token of the normalized
expected city is a substring of the hit's normalized city (vacuously
true when the normalized expectation has no tokens). -/
def specCityMatchC1 (meta : MetaRec) (ec : String) : Bool :=
  (splitTokens (normS ec)).all (fun w => containsL w (normO meta.city).data)

/-- Claim C1's acceptance predicate, assembled from its clauses. -/
def acceptSpecC1 (meta : MetaRec) (expectCity expectState : Option String) : Bool :=
  (!truthy expectState ||
      (inUS meta.country_code && specRegionMatch meta (expectState.getD ""))) &&
    (!truthy expectCity || specCityMatchC1 meta (expectCity.getD ""))

/-- Clause (c) as the code actually enforces it: the normalized expected
city must itself be non-empty (a punctuation-only expectation rejects
every hit), and then every one of its tokens occurs in the hit's
normalized city. -/
def specCityMatchAmended (meta : MetaRec) (ec : String) : Bool :=
  !(normS ec).isEmpty &&
    (splitTokens (normS ec)).all (fun w => containsL w (normO meta.city).data)

/-- The amended acceptance predicate of claim C1. -/
def acceptSpecAmended (meta : MetaRec) (expectCity expectState : Option String) : Bool :=
  (!truthy expectState ||
      (inUS meta.country_code && specRegionMatch meta (expectState.getD ""))) &&
    (!truthy expectCity || specCityMatchAmended meta (expectCity.getD ""))
/-! ### Exact JavaScript numbers -/

/-- A JavaScript number: an integer fraction with positive denominator
(not necessarily in lowest terms — equality of records is only ever
taken between values copied from the same source, so representation
equality suffices).  Every finite IEEE-754 double is `m / 2^k`, hence
exactly representable. -/
structure JNum where
  num : Int
  den : Nat
deriving DecidableEq, Repr

/-- `Math.round` (half toward positive infinity):
`⌊x + 1/2⌋ = ⌊(2·num + den) / (2·den)⌋`, computed with floor division. -/
def JNum.round (x : JNum) : Int :=
  Int.fdiv (2 * x.num + (x.den : Int)) (2 * (x.den : Int))

/-- `x * 1e4`, exact. -/
def JNum.scale4 (x : JNum) : JNum := ⟨x.num * 10000, x.den⟩

/-! ### Data model: provider payloads, hits, candidates, requests -/

/-- Outcome of one `fetch` call: HTTP success with a parse attempt
(`parsed = none` when `r.json()` rejects, which the source maps to
`null` — or to `[]` for Nominatim), a non-success status (`r.ok` false),
or a rejected promise carrying an exception with message `msg`. -/
inductive Fetched (α : Type) where
  | ok (parsed : Option α)
  | notOk
  | thrown (msg : String)
deriving DecidableEq, Repr

/-- Result of an `async` computation: a value, or a propagating
exception with message `msg`. -/
inductive Res (α : Type) where
  | ok (val : α)
  | thrown (msg : String)
deriving DecidableEq, Repr

/-- One entry of a Google Places response (`candidates` array of Find
Place, `results` array of Text Search): the fields the source reads. -/
structure GoogleResult where
  types : List String
  formatted_address : Option String
  name : Option String
  locLat : Option JNum
  locLng : Option JNum
deriving DecidableEq, Repr

/-- The `properties` object of a Geoapify feature (the fields the source
reads; `rankHouseNumber`/`rankStreet` are the truthiness of
`rank.house_number`/`rank.street`). -/
structure GeoProps where
  result_type : Option String
  rankHouseNumber : Bool
  rankStreet : Bool
  formatted : Option String
  name : Option String
  street : Option String
  city : Option String
  town : Option String
  village : Option String
  suburb : Option String
  state : Option String
  state_code : Option String
  country_code : Option String
  lat : Option JNum
  lon : Option JNum
deriving DecidableEq, Repr

/-- A Geoapify feature. -/
structure GeoFeature where
  properties : GeoProps
deriving DecidableEq, Repr

/-- One entry of a Mapbox feature's `context` array. -/
structure MapCtx where
  id : Option String
  text : Option String
  short_code : Option String
deriving DecidableEq, Repr

/-- A Mapbox feature (the fields the source reads; `center` is the
`[lng, lat]` array). -/
structure MapFeature where
  place_type : List String
  place_name : Option String
  context : List MapCtx
  center : List JNum
deriving DecidableEq, Repr

/-- The `address` object of a Nominatim result. -/
structure NomAddress where
  city : Option String
  town : Option String
  village : Option String
  hamlet : Option String
  suburb : Option String
  state : Option String
  country_code : Option String
deriving DecidableEq, Repr

/-- A Nominatim result entry.  `cls`/`typ` stand for the source's
`class`/`type` fields; `latNum`/`lonNum` are the values of
`Number(f.lat)`/`Number(f.lon)` on the raw string fields, with `none`
for `NaN` (missing or unparseable raw strings). -/
structure NomFeature where
  cls : Option String
  typ : Option String
  addresstype : Option String
  display_name : Option String
  latNum : Option JNum
  lonNum : Option JNum
  address : NomAddress
deriving DecidableEq, Repr

/-- The `PreciseHit` record of the source (strict mode's answer).
`lat`/`lng` are `Option JNum` because the source copies possibly-missing
provider fields (`number | undefined`, or `NaN` from `Number(...)`). -/
structure PreciseHit where
  provider : String
  address_text : String
  lat : Option JNum
  lng : Option JNum
  meta : MetaRec
deriving DecidableEq, Repr

/-- The `Candidate` record of the source, before scoring. -/
structure Candidate where
  provider : String
  label : String
  lat : Option JNum
  lng : Option JNum
  city : Option String
  state : Option String
  state_code : Option String
  country_code : Option String
deriving DecidableEq, Repr

/-- A candidate together with its `score` field (set by the aggregator;
the response in candidate mode serializes these records). -/
structure Scored where
  cand : Candidate
  score : Int
deriving DecidableEq, Repr

/-- Truthiness of the three provider credentials read from the process
environment (`GOOGLE_MAPS_API_KEY`, `GEOAPIFY_API_KEY`, `MAPBOX_TOKEN`). -/
structure Env where
  googleKey : Bool
  geoapifyKey : Bool
  mapboxToken : Bool
deriving DecidableEq, Repr

/-- The external services: for each provider endpoint, the response as a
function of the query string and the optional bias point the adapter
sends.  Each strict/candidate pair of adapter functions hits the same
provider endpoint, so shares one field. -/
structure World where
  googleFindPlace : String → Option (JNum × JNum) → Fetched (List GoogleResult)
  googleText : String → Option (JNum × JNum) → Fetched (List GoogleResult)
  geoapify : String → Option (JNum × JNum) → Fetched (List GeoFeature)
  mapbox : String → Option (JNum × JNum) → Fetched (List MapFeature)
  nominatim : String → Option (JNum × JNum) → Fetched (List NomFeature)

/-- The `near` field of a request as it arrives in JSON: each coordinate
is `some q` when it is a (finite) JSON number, `none` otherwise
(`Number.isFinite` is true exactly on finite numbers). -/
structure NearJson where
  latJ : Option JNum
  lngJ : Option JNum
deriving DecidableEq, Repr

/-- The parsed request body of the resolve endpoint. -/
structure Req where
  q : Option String
  near : Option NearJson
  expectCity : Option String
  expectState : Option String
  candidates : Bool
deriving DecidableEq, Repr

/-- A response body: an error object, a single hit (strict mode), or a
candidates array (candidate mode). -/
inductive Body where
  | errorB (msg : String)
  | hitB (h : PreciseHit)
  | candB (cands : List Scored)
deriving DecidableEq, Repr

/-! ### Per-provider precision tests, labels and locality extraction -/

/-- `isPreciseGeoapify` of the source. -/
def isPreciseGeoapify (f : GeoFeature) : Bool :=
  ["amenity", "building", "house", "street"].contains (f.properties.result_type.getD "") ||
    f.properties.rankHouseNumber || f.properties.rankStreet

/-- `labelGeoapify` of the source: `formatted`, else the comma-join of
the truthy entries among `name`, `street`, `city`, `state`. -/
def labelGeoapify (f : GeoFeature) : String :=
  jsOr f.properties.formatted
    (joinSep ", "
      (([f.properties.name, f.properties.street, f.properties.city,
          f.properties.state].filterMap id).filter (fun s => !s.isEmpty)))

/-- `isPreciseMapbox` of the source. -/
def isPreciseMapbox (f : MapFeature) : Bool :=
  f.place_type.contains "poi" || f.place_type.contains "address" ||
    f.place_type.contains "street"

/-- `labelMapbox` of the source. -/
def labelMapbox (f : MapFeature) : String := jsOr f.place_name ""

/-- `isPreciseGoogle` of the source. -/
def isPreciseGoogle (r : GoogleResult) : Bool :=
  r.types.contains "establishment" || r.types.contains "point_of_interest" ||
    r.types.contains "street_address" || r.types.contains "route" ||
    r.types.contains "premise"

/-- `labelGoogle` of the source. -/
def labelGoogle (r : GoogleResult) : String :=
  jsOr r.formatted_address (jsOr r.name "")

/-- `isPreciseNominatim` of the source (`cls`/`typ` are the `class`/
`type` fields). -/
def isPreciseNominatim (f : NomFeature) : Bool :=
  f.cls == some "amenity" ||
    f.addresstype == some "house" || f.addresstype == some "building" ||
    f.addresstype == some "road" ||
    f.typ == some "house" || f.typ == some "building" ||
    f.typ == some "restaurant" || f.typ == some "fuel" ||
    f.typ == some "pub" || f.typ == some "convenience"

/-- `labelNominatim` of the source. -/
def labelNominatim (f : NomFeature) : String := jsOr f.display_name ""

/-- ASCII uppercase letter. -/
def isUpperAZ (c : Char) : Bool := ('A' ≤ c) && (c ≤ 'Z')

/-- JavaScript `\w` (word character): `[A-Za-z0-9_]`. -/
def isWordChar (c : Char) : Bool := c.isAlpha || c.isDigit || c == '_'

/-- Leftmost match of the regex `\b([A-Z]{2})\b`: scan positions left to
right; a position matches when it starts two uppercase letters with a
word boundary on each side (`prev` is the character before the current
position, `none` at the start). -/
def twoCapsScan (prev : Option Char) : List Char → Option String
  | [] => none
  | a :: rest =>
    match rest with
    | [] => none
    | b :: rest2 =>
      if isUpperAZ a && isUpperAZ b &&
          (match prev with | none => true | some p => !isWordChar p) &&
          (match rest2.head? with | none => true | some n => !isWordChar n)
      then some (String.mk [a, b])
      else twoCapsScan (some a) rest

/-- `region.match(/\b([A-Z]{2})\b/)` — the captured group of the
leftmost match, if any. -/
def twoCapsMatch (s : String) : Option String := twoCapsScan none s.data

/-- `parseGoogleFormattedAddress` of the source: split the formatted
address on commas, trim the parts, read the country from the last part,
and crudely take city and two-letter state code from the tail parts. -/
def parseGoogleFormattedAddress (addr : Option String) : MetaRec :=
  if !truthy addr then ⟨none, none, none, none⟩
  else
    let a := addr.getD ""
    let parts := (splitOnChar ',' a).map jsTrim
    let lastLower := lowerS (parts.getLastD "")
    let cc1 : Option String :=
      if containsS "usa" lastLower || lastLower == "us" ||
          lastLower == "united states" then some "us" else none
    let cc : Option String := if lastLower == "canada" then some "ca" else cc1
    if parts.length ≥ 2 then
      let maybeCity :=
        if parts.length ≥ 3 then
          jsOrStr (parts.getD (parts.length - 3) "") (parts.getD (parts.length - 2) "")
        else parts.getD (parts.length - 2) ""
      let region := parts.getD (parts.length - 2) ""
      match twoCapsMatch region with
      | some code => ⟨some maybeCity, some (jsOr (US_STATES code) code), some code, cc⟩
      | none => ⟨some maybeCity, none, none, cc⟩
    else ⟨none, none, none, cc⟩

/-- The `context` loop of the Mapbox adapters: later entries overwrite
earlier ones; a `region` entry also sets `state_code` from the part of
`short_code` after the dash, uppercased; a `country` entry always sets
`country_code` (possibly to `""` when `short_code` is absent). -/
def mapboxContextMeta (ctx : List MapCtx) : MetaRec :=
  ctx.foldl
    (fun acc c =>
      let cid := c.id.getD ""
      let acc1 := if startsS "place" cid then { acc with city := c.text } else acc
      let acc2 :=
        if startsS "region" cid then
          { acc1 with
            state := c.text,
            state_code := (c.short_code.bind (fun sc => (splitOnChar '-' sc).get? 1)).map upperS }
        else acc1
      if startsS "country" cid then
        { acc2 with country_code := some (lowerS (c.short_code.getD "")) }
      else acc2)
    ⟨none, none, none, none⟩

/-! ### Provider adapters (strict and candidate operations) -/

/-- `fromGoogleFindPlace` of the source: absent key — `null`; non-success
or unparseable response — `null`; else the first candidate, if precise
and accepted. -/
def fromGoogleFindPlace (env : Env) (w : World) (q : String)
    (near : Option (JNum × JNum)) (expectCity expectState : Option String) :
    Res (Option PreciseHit) :=
  if !env.googleKey then .ok none
  else
    match w.googleFindPlace q near with
    | .thrown m => .thrown m
    | .notOk => .ok none
    | .ok parsed =>
      match (parsed.getD []).head? with
      | none => .ok none
      | some c =>
        if !isPreciseGoogle c then .ok none
        else if !acceptHit (parseGoogleFormattedAddress c.formatted_address)
            expectCity expectState then .ok none
        else .ok (some ⟨"google_findplace",
          jsOr c.formatted_address (jsOr c.name q), c.locLat, c.locLng,
          parseGoogleFormattedAddress c.formatted_address⟩)

/-- `candidatesGoogleFindPlace` of the source: first five candidates,
mapped with the crude address parse (no precision filter here). -/
def candidatesGoogleFindPlace (env : Env) (w : World) (q : String)
    (near : Option (JNum × JNum)) : Res (List Candidate) :=
  if !env.googleKey then .ok []
  else
    match w.googleFindPlace q near with
    | .thrown m => .thrown m
    | .notOk => .ok []
    | .ok parsed =>
      .ok (((parsed.getD []).take 5).map (fun c =>
        ⟨"google_findplace", jsOr c.formatted_address (jsOr c.name ""),
          c.locLat, c.locLng, (parseGoogleFormattedAddress c.formatted_address).city,
          (parseGoogleFormattedAddress c.formatted_address).state,
          (parseGoogleFormattedAddress c.formatted_address).state_code,
          (parseGoogleFormattedAddress c.formatted_address).country_code⟩))

/-- `fromGoogleText` of the source: the first precise result, if
accepted. -/
def fromGoogleText (env : Env) (w : World) (q : String)
    (near : Option (JNum × JNum)) (expectCity expectState : Option String) :
    Res (Option PreciseHit) :=
  if !env.googleKey then .ok none
  else
    match w.googleText q near with
    | .thrown m => .thrown m
    | .notOk => .ok none
    | .ok parsed =>
      match (parsed.getD []).find? isPreciseGoogle with
      | none => .ok none
      | some best =>
        if !acceptHit (parseGoogleFormattedAddress best.formatted_address)
            expectCity expectState then .ok none
        else .ok (some ⟨"google_text", labelGoogle best, best.locLat,
          best.locLng, parseGoogleFormattedAddress best.formatted_address⟩)

/-- `candidatesGoogleText` of the source: first five results, mapped (no
precision filter here). -/
def candidatesGoogleText (env : Env) (w : World) (q : String)
    (near : Option (JNum × JNum)) : Res (List Candidate) :=
  if !env.googleKey then .ok []
  else
    match w.googleText q near with
    | .thrown m => .thrown m
    | .notOk => .ok []
    | .ok parsed =>
      .ok (((parsed.getD []).take 5).map (fun it =>
        ⟨"google_text", jsOr it.formatted_address (jsOr it.name ""),
          it.locLat, it.locLng, (parseGoogleFormattedAddress it.formatted_address).city,
          (parseGoogleFormattedAddress it.formatted_address).state,
          (parseGoogleFormattedAddress it.formatted_address).state_code,
          (parseGoogleFormattedAddress it.formatted_address).country_code⟩))

/-- The locality record a Geoapify feature maps to. -/
def geoapifyMeta (p : GeoProps) : MetaRec :=
  ⟨jsOrO p.city (jsOrO p.town (jsOrO p.village p.suburb)),
    p.state, p.state_code, p.country_code⟩

/-- `fromGeoapify` of the source. -/
def fromGeoapify (env : Env) (w : World) (q : String)
    (near : Option (JNum × JNum)) (expectCity expectState : Option String) :
    Res (Option PreciseHit) :=
  if !env.geoapifyKey then .ok none
  else
    match w.geoapify q near with
    | .thrown m => .thrown m
    | .notOk => .ok none
    | .ok parsed =>
      match (parsed.getD []).find? isPreciseGeoapify with
      | none => .ok none
      | some best =>
        if !acceptHit (geoapifyMeta best.properties) expectCity expectState
          then .ok none
        else .ok (some ⟨"geoapify", labelGeoapify best,
          best.properties.lat, best.properties.lon, geoapifyMeta best.properties⟩)

/-- `candidatesGeoapify` of the source: precise features, mapped. -/
def candidatesGeoapify (env : Env) (w : World) (q : String)
    (near : Option (JNum × JNum)) : Res (List Candidate) :=
  if !env.geoapifyKey then .ok []
  else
    match w.geoapify q near with
    | .thrown m => .thrown m
    | .notOk => .ok []
    | .ok parsed =>
      .ok (((parsed.getD []).filter isPreciseGeoapify).map (fun f =>
        ⟨"geoapify", labelGeoapify f, f.properties.lat, f.properties.lon,
          jsOrO f.properties.city (jsOrO f.properties.town
            (jsOrO f.properties.village f.properties.suburb)),
          f.properties.state, f.properties.state_code,
          f.properties.country_code⟩))

/-- `fromMapbox` of the source: first precise feature, locality from the
`context` array, coordinates from the `[lng, lat]` center. -/
def fromMapbox (env : Env) (w : World) (q : String)
    (near : Option (JNum × JNum)) (expectCity expectState : Option String) :
    Res (Option PreciseHit) :=
  if !env.mapboxToken then .ok none
  else
    match w.mapbox q near with
    | .thrown m => .thrown m
    | .notOk => .ok none
    | .ok parsed =>
      match (parsed.getD []).find? isPreciseMapbox with
      | none => .ok none
      | some best =>
        if !acceptHit (mapboxContextMeta best.context) expectCity expectState
          then .ok none
        else .ok (some ⟨"mapbox", labelMapbox best,
          best.center.get? 1, best.center.get? 0, mapboxContextMeta best.context⟩)

/-- `candidatesMapbox` of the source: precise features, mapped. -/
def candidatesMapbox (env : Env) (w : World) (q : String)
    (near : Option (JNum × JNum)) : Res (List Candidate) :=
  if !env.mapboxToken then .ok []
  else
    match w.mapbox q near with
    | .thrown m => .thrown m
    | .notOk => .ok []
    | .ok parsed =>
      .ok (((parsed.getD []).filter isPreciseMapbox).map (fun f =>
        ⟨"mapbox", labelMapbox f, f.center.get? 1, f.center.get? 0,
          (mapboxContextMeta f.context).city, (mapboxContextMeta f.context).state,
          (mapboxContextMeta f.context).state_code,
          (mapboxContextMeta f.context).country_code⟩))

/-- The locality record a Nominatim address maps to. -/
def nominatimMeta (addr : NomAddress) : MetaRec :=
  ⟨jsOrO addr.city (jsOrO addr.town (jsOrO addr.village
      (jsOrO addr.hamlet addr.suburb))),
    addr.state,
    STATE_NAMES_TO_CODE (lowerS (addr.state.getD "")),
    some (lowerS (addr.country_code.getD ""))⟩

/-- `fromNominatim` of the source (no credential; a failed `r.json()`
yields `[]` here). -/
def fromNominatim (_env : Env) (w : World) (q : String)
    (near : Option (JNum × JNum)) (expectCity expectState : Option String) :
    Res (Option PreciseHit) :=
  match w.nominatim q near with
  | .thrown m => .thrown m
  | .notOk => .ok none
  | .ok parsed =>
    match (parsed.getD []).find? isPreciseNominatim with
    | none => .ok none
    | some best =>
      if !acceptHit (nominatimMeta best.address) expectCity expectState
        then .ok none
      else .ok (some ⟨"nominatim", labelNominatim best, best.latNum,
        best.lonNum, nominatimMeta best.address⟩)

/-- `candidatesNominatim` of the source: precise entries, mapped. -/
def candidatesNominatim (_env : Env) (w : World) (q : String)
    (near : Option (JNum × JNum)) : Res (List Candidate) :=
  match w.nominatim q near with
  | .thrown m => .thrown m
  | .notOk => .ok []
  | .ok parsed =>
    .ok (((parsed.getD []).filter isPreciseNominatim).map (fun f =>
      ⟨"nominatim", labelNominatim f, f.latNum, f.lonNum,
        (nominatimMeta f.address).city, (nominatimMeta f.address).state,
        (nominatimMeta f.address).state_code,
        (nominatimMeta f.address).country_code⟩))

/-! ### Strict resolver, candidate aggregator, request handler -/

/-- The fixed adapter priority order of the strict chain (the provider
tags, in the order the `||` chain of the source tries them). -/
def providerOrder : List String :=
  ["google_findplace", "geoapify", "mapbox", "google_text", "nominatim"]

/-- The strict `||` fallback chain of the source (`route.ts` 223–228),
instrumented with the list of adapter invocations it actually performs:
each entry records the provider tried and the query string it was given.
A falsy (`null`) result moves to the next adapter; a truthy hit
short-circuits; an exception propagates. -/
def strictResolve (env : Env) (w : World) (q : String)
    (near : Option (JNum × JNum)) (expectCity expectState : Option String) :
    Res (Option PreciseHit × List (String × String)) :=
  match fromGoogleFindPlace env w q near expectCity expectState with
  | .thrown m => .thrown m
  | .ok (some h) => .ok (some h, [("google_findplace", q)])
  | .ok none =>
    match fromGeoapify env w q near expectCity expectState with
    | .thrown m => .thrown m
    | .ok (some h) => .ok (some h, [("google_findplace", q), ("geoapify", q)])
    | .ok none =>
      match fromMapbox env w q near expectCity expectState with
      | .thrown m => .thrown m
      | .ok (some h) =>
        .ok (some h, [("google_findplace", q), ("geoapify", q), ("mapbox", q)])
      | .ok none =>
        match fromGoogleText env w q near expectCity expectState with
        | .thrown m => .thrown m
        | .ok (some h) =>
          .ok (some h, [("google_findplace", q), ("geoapify", q),
            ("mapbox", q), ("google_text", q)])
        | .ok none =>
          match fromNominatim env w q near expectCity expectState with
          | .thrown m => .thrown m
          | .ok (some h) =>
            .ok (some h, [("google_findplace", q), ("geoapify", q),
              ("mapbox", q), ("google_text", q), ("nominatim", q)])
          | .ok none =>
            .ok (none, [("google_findplace", q), ("geoapify", q),
              ("mapbox", q), ("google_text", q), ("nominatim", q)])

/-- The outcome adapter `k` of the priority chain would produce (each
adapter is a pure function of the environment and world, so its outcome
is well-defined whether or not the chain reaches it). -/
def adapterResult (env : Env) (w : World) (q : String)
    (near : Option (JNum × JNum)) (expectCity expectState : Option String) :
    Fin 5 → Res (Option PreciseHit)
  | ⟨0, _⟩ => fromGoogleFindPlace env w q near expectCity expectState
  | ⟨1, _⟩ => fromGeoapify env w q near expectCity expectState
  | ⟨2, _⟩ => fromMapbox env w q near expectCity expectState
  | ⟨3, _⟩ => fromGoogleText env w q near expectCity expectState
  | ⟨4, _⟩ => fromNominatim env w q near expectCity expectState

/-- The coordinate component of a dedup key: `Math.round(x * 1e4)`
stringified; an absent/`NaN` coordinate stringifies to `"NaN"`. -/
def numKey : Option JNum → String
  | none => "NaN"
  | some x => toString (x.scale4.round)

/-- The dedup key of the aggregator:
`norm(label) + "|" + round(lat·1e4) + "|" + round(lng·1e4)`. -/
def dedupKey (s : Scored) : String :=
  normS s.cand.label ++ "|" ++ numKey s.cand.lat ++ "|" ++ numKey s.cand.lng

/-- The initial scores: candidate at flatten index `i` gets `100 - i`
(the `map((c, i) => ({...c, score: 100 - i}))` of the source), so `i₀`
counts down from 100. -/
def scoreFrom (i : Int) : List Candidate → List Scored
  | [] => []
  | c :: rest => ⟨c, i⟩ :: scoreFrom (i - 1) rest

/-- The score boosts of the aggregator's `forEach`: +30 for an exact
state-code match, +20 for a normalized state-name match (these stack),
+20 when the normalized candidate city contains the whole normalized
expected city. -/
def boostFor (c : Candidate) (cityWanted stateWanted : String) : Int :=
  (if truthy c.state_code && !stateWanted.isEmpty &&
      (upperS (c.state_code.getD "") == stateWanted) then 30 else 0) +
  (if truthy c.state && !stateWanted.isEmpty &&
      (normO c.state == normS (jsOr (US_STATES stateWanted) (c.state.getD "")))
    then 20 else 0) +
  (if truthy c.city && !cityWanted.isEmpty &&
      containsL cityWanted.data (normO c.city).data then 20 else 0)

/-- Flatten-scoring, country restriction and boosting of the aggregator
(`route.ts` 247–262): initial score `100 - i` over the flattened list,
then — when a state is expected — restriction to US candidates, then
the boosts. -/
def scorePipeline (flat : List Candidate) (expectCity expectState : Option String) :
    List Scored :=
  let all := scoreFrom 100 flat
  let all2 :=
    if truthy expectState then all.filter (fun s => inUS s.cand.country_code)
    else all
  let cityWanted := normO expectCity
  let stateWanted := upperS (expectState.getD "")
  all2.map (fun s => ⟨s.cand, s.score + boostFor s.cand cityWanted stateWanted⟩)

/-- Stable insertion for the descending sort: the new element goes after
every element of score ≥ its own.  On a descending-sorted accumulator
this is exactly where JavaScript's stable `sort((a, b) => (b.score||0) -
(a.score||0))` puts it (all scores are set, so `|| 0` is the identity). -/
def sortInsert (c : Scored) : List Scored → List Scored
  | [] => [c]
  | d :: rest => if c.score > d.score then c :: d :: rest else d :: sortInsert c rest

/-- Stable descending sort by score.  A stable sort's output is uniquely
determined by the comparator and the input order, so this insertion sort
computes the same list as the source's `Array.prototype.sort` (stable
per ECMA-262). -/
def sortScored (l : List Scored) : List Scored :=
  l.foldl (fun acc c => sortInsert c acc) []

/-- The dedup loop of the aggregator: first occurrence (in sorted order)
of each dedup key wins; `seen` is the set of keys already emitted. -/
def dedupeScored (seen : List String) : List Scored → List Scored
  | [] => []
  | c :: rest =>
    if seen.contains (dedupKey c) then dedupeScored seen rest
    else c :: dedupeScored (dedupKey c :: seen) rest

/-- `gatherCandidates` of the source: the five `findCandidates` calls
joined (`Promise.all` rejects as soon as any bucket rejects, and
resolves to the five bucket lists otherwise), then flatten + score +
restrict + boost, then stable descending sort and dedup. -/
def gatherCandidates (env : Env) (w : World) (q : String)
    (near : Option (JNum × JNum)) (expectCity expectState : Option String) :
    Res (List Scored) :=
  match candidatesGoogleFindPlace env w q near with
  | .thrown m => .thrown m
  | .ok b1 =>
    match candidatesGeoapify env w q near with
    | .thrown m => .thrown m
    | .ok b2 =>
      match candidatesMapbox env w q near with
      | .thrown m => .thrown m
      | .ok b3 =>
        match candidatesGoogleText env w q near with
        | .thrown m => .thrown m
        | .ok b4 =>
          match candidatesNominatim env w q near with
          | .thrown m => .thrown m
          | .ok b5 =>
            .ok (dedupeScored []
              (sortScored (scorePipeline (b1 ++ b2 ++ b3 ++ b4 ++ b5)
                expectCity expectState)))

/-- The bias point of the handler: `near` must be present with both
coordinates finite numbers, else `null`. -/
def biasOf (near : Option NearJson) : Option (JNum × JNum) :=
  match near with
  | some n =>
    match n.latJ, n.lngJ with
    | some a, some b => some (a, b)
    | _, _ => none
  | none => none

/-- The `POST` handler of the source (`route.ts` 202–235): validation,
bias normalization, dispatch on the `candidates` flag, status mapping,
and the surrounding `try`/`catch` that turns a propagating exception
into a 500 with the exception's message. -/
def POST (env : Env) (w : World) (req : Req) : Nat × Body :=
  match req.q with
  | none => (400, .errorB "Missing q")
  | some q0 =>
    if (jsTrim q0).isEmpty then (400, .errorB "Missing q")
    else
      let text := jsTrim q0
      let bias := biasOf req.near
      if req.candidates then
        match gatherCandidates env w text bias req.expectCity req.expectState with
        | .thrown m => (500, .errorB m)
        | .ok list =>
          if list.isEmpty then (404, .errorB "No candidates")
          else (200, .candB (list.take 8))
      else
        match strictResolve env w text bias req.expectCity req.expectState with
        | .thrown m => (500, .errorB m)
        | .ok (some h, _) => (200, .hitB h)
        | .ok (none, _) => (404, .errorB "No precise match found in specified city/state")

/-- The query construction of `ClientPage.tsx` (`onFindAddress`, line
1440): the truthy entries among address text, city and state code,
joined with `", "` — unconditionally. -/
def onFindAddressQuery (addressText city stateCode : String) : String :=
  joinSep ", "
    (([addressText, city, stateCode]).filter (fun s => !s.isEmpty))

/-! ### Claim-side predicates and concrete fixtures -/

/-- A latitude value that is a finite number in the valid range
(`-90 ≤ num/den ≤ 90`, cross-multiplied with the positive denominator). -/
def latOK (x : Option JNum) : Prop :=
  ∃ a, x = some a ∧ 0 < a.den ∧
    -(90 : Int) * (a.den : Int) ≤ a.num ∧ a.num ≤ 90 * (a.den : Int)

/-- A longitude value that is a finite number in the valid range. -/
def lngOK (x : Option JNum) : Prop :=
  ∃ b, x = some b ∧ 0 < b.den ∧
    -(180 : Int) * (b.den : Int) ≤ b.num ∧ b.num ≤ 180 * (b.den : Int)

/-- The `Hit` invariant claimed by the spec: non-empty label, finite
in-range coordinates. -/
def hitOK (h : PreciseHit) : Prop := h.address_text ≠ "" ∧ latOK h.lat ∧ lngOK h.lng

/-- A Google result whose label and coordinates are well-formed. -/
def googleEntryOK (c : GoogleResult) : Prop :=
  labelGoogle c ≠ "" ∧ latOK c.locLat ∧ lngOK c.locLng

/-- A Geoapify feature whose label and coordinates are well-formed. -/
def geoEntryOK (f : GeoFeature) : Prop :=
  labelGeoapify f ≠ "" ∧ latOK f.properties.lat ∧ lngOK f.properties.lon

/-- A Mapbox feature whose label and center are well-formed. -/
def mapEntryOK (f : MapFeature) : Prop :=
  labelMapbox f ≠ "" ∧ latOK (f.center.get? 1) ∧ lngOK (f.center.get? 0)

/-- A Nominatim entry whose label and coordinates are well-formed. -/
def nomEntryOK (f : NomFeature) : Prop :=
  labelNominatim f ≠ "" ∧ latOK f.latNum ∧ lngOK f.lonNum

/-- Every provider response entry that passes its precision test carries
a well-formed label and coordinates (the implicit assumption under which
the spec's Hit invariant can hold — the code itself enforces none of it). -/
def worldHitsOK (w : World) : Prop :=
  (∀ q b l, w.googleFindPlace q b = .ok (some l) →
    ∀ c ∈ l, isPreciseGoogle c = true → googleEntryOK c) ∧
  (∀ q b l, w.googleText q b = .ok (some l) →
    ∀ c ∈ l, isPreciseGoogle c = true → googleEntryOK c) ∧
  (∀ q b l, w.geoapify q b = .ok (some l) →
    ∀ f ∈ l, isPreciseGeoapify f = true → geoEntryOK f) ∧
  (∀ q b l, w.mapbox q b = .ok (some l) →
    ∀ f ∈ l, isPreciseMapbox f = true → mapEntryOK f) ∧
  (∀ q b l, w.nominatim q b = .ok (some l) →
    ∀ f ∈ l, isPreciseNominatim f = true → nomEntryOK f)

/-- The candidate score formula claim C4 describes: the rank-based base,
+30 for an exact region-code *or* region-name match, a further +20 when
the expected city tokens match the candidate city. -/
def specC4Score (c : Candidate) (baseRank : Int) (ec es : Option String) : Int :=
  baseRank +
    (if truthy es &&
        specRegionMatch ⟨c.city, c.state, c.state_code, c.country_code⟩ (es.getD "")
      then 30 else 0) +
    (if truthy ec && cityTokensMatch c.city ec then 20 else 0)

/-- Fixture: all three credentials present. -/
def envAllKeys : Env := ⟨true, true, true⟩

/-- Fixture: only the Mapbox token present. -/
def envMapboxOnly : Env := ⟨false, false, true⟩

/-- Fixture: only the Geoapify key present. -/
def envGeoapifyOnly : Env := ⟨false, true, false⟩

/-- Fixture: every provider endpoint returns a non-success HTTP status. -/
def worldAllNotOk : World :=
  ⟨fun _ _ => .notOk, fun _ _ => .notOk, fun _ _ => .notOk,
   fun _ _ => .notOk, fun _ _ => .notOk⟩

/-- Fixture: a precise, fully-localized Mapbox feature. -/
def mapFeatGlen : MapFeature :=
  ⟨["address"], some "81 Forest Ave, Glen Cove, NY 11542, USA",
   [⟨some "place.1", some "Glen Cove", none⟩,
    ⟨some "region.2", some "New York", some "US-NY"⟩,
    ⟨some "country.3", some "United States", some "us"⟩],
   [⟨-736, 10⟩, ⟨4086, 100⟩]⟩

/-- Fixture: only Mapbox answers, with `mapFeatGlen`. -/
def worldMapboxGlen : World :=
  ⟨fun _ _ => .notOk, fun _ _ => .notOk, fun _ _ => .notOk,
   fun _ _ => .ok (some [mapFeatGlen]), fun _ _ => .notOk⟩

/-- The hit `fromMapbox` produces from `mapFeatGlen`. -/
def hitMapboxGlen : PreciseHit :=
  ⟨"mapbox", "81 Forest Ave, Glen Cove, NY 11542, USA",
   some ⟨4086, 100⟩, some ⟨-736, 10⟩,
   ⟨some "Glen Cove", some "New York", some "NY", some "us"⟩⟩

/-- Fixture: a Mapbox feature that passes the precision test but has no
`place_name` and an empty `center`. -/
def mapFeatBare : MapFeature := ⟨["address"], none, [], []⟩

/-- Fixture: only Mapbox answers, with the degenerate `mapFeatBare`. -/
def worldMapboxBare : World :=
  ⟨fun _ _ => .notOk, fun _ _ => .notOk, fun _ _ => .notOk,
   fun _ _ => .ok (some [mapFeatBare]), fun _ _ => .notOk⟩

/-- Fixture: a Google Find Place candidate that fails the precision test
(no types). -/
def googleNonPrecise : GoogleResult :=
  ⟨[], some "Springfield Area", none, some ⟨1, 1⟩, some ⟨2, 1⟩⟩

/-- Fixture: Google Find Place succeeds with only the non-precise
candidate; everything else is a non-success status. -/
def worldGoogleLoose : World :=
  ⟨fun _ _ => .ok (some [googleNonPrecise]), fun _ _ => .notOk,
   fun _ _ => .notOk, fun _ _ => .notOk, fun _ _ => .notOk⟩

/-- Fixture: a precise Geoapify feature localized to Glen Cove, NY. -/
def geoFeatNY : GeoFeature :=
  ⟨⟨some "amenity", false, false, some "Cafe X, Glen Cove, NY",
    none, none, some "Glen Cove", none, none, none,
    some "New York", some "NY", some "us", some ⟨404, 10⟩, some ⟨-735, 10⟩⟩⟩

/-- The candidate `candidatesGeoapify` produces from `geoFeatNY`. -/
def geoCandNY : Candidate :=
  ⟨"geoapify", "Cafe X, Glen Cove, NY", some ⟨404, 10⟩, some ⟨-735, 10⟩,
   some "Glen Cove", some "New York", some "NY", some "us"⟩

/-- Fixture: only Geoapify answers, with `geoFeatNY`. -/
def worldGeoNY : World :=
  ⟨fun _ _ => .notOk, fun _ _ => .notOk, fun _ _ => .ok (some [geoFeatNY]),
   fun _ _ => .notOk, fun _ _ => .notOk⟩

/-- Fixture: a second Geoapify feature with the same label and
coordinates as `geoFeatNY` (hence the same dedup key) but no region
fields, so a lower score. -/
def geoFeatDup : GeoFeature :=
  ⟨⟨some "amenity", false, false, some "Cafe X, Glen Cove, NY",
    none, none, some "Glen Cove", none, none, none,
    none, none, some "us", some ⟨404, 10⟩, some ⟨-735, 10⟩⟩⟩

/-- Fixture: Geoapify returns the duplicate pair. -/
def worldGeoDup : World :=
  ⟨fun _ _ => .notOk, fun _ _ => .notOk,
   fun _ _ => .ok (some [geoFeatNY, geoFeatDup]),
   fun _ _ => .notOk, fun _ _ => .notOk⟩

/-- Fixture: Mapbox rejects (network exception) while Geoapify has a
perfectly good candidate. -/
def worldMapboxThrows : World :=
  ⟨fun _ _ => .notOk, fun _ _ => .notOk, fun _ _ => .ok (some [geoFeatNY]),
   fun _ _ => .thrown "boom", fun _ _ => .notOk⟩

/-! ### Lemmas for the locality filter -/

theorem strEmpty_true {s : String} (h : s = "") : s.isEmpty = true :=
  (String.isEmpty_iff s).mpr h

theorem strEmpty_false {s : String} (h : s ≠ "") : s.isEmpty = false := by
  cases he : s.isEmpty
  · rfl
  · exact absurd ((String.isEmpty_iff s).mp he) h

theorem truthy_some {s : String} (h : s ≠ "") : truthy (some s) = true := by
  simp [truthy, strEmpty_false h]

theorem dropWhile_head_false {p : Char → Bool} :
    ∀ {l : List Char} {a : Char} {t : List Char}, l.dropWhile p = a :: t → p a = false := by
  intro l
  induction l with
  | nil => intro a t h; exact absurd h (by simp)
  | cons c rest ih =>
    intro a t h
    by_cases hc : p c
    · rw [List.dropWhile_cons_of_pos hc] at h; exact ih h
    · rw [List.dropWhile_cons_of_neg hc] at h
      cases h
      exact Bool.eq_false_iff.mpr hc

theorem trimSpaces_has_nonspace {l : List Char} (h : trimSpaces l ≠ []) :
    ∃ c ∈ trimSpaces l, c ≠ ' ' := by
  unfold trimSpaces at *
  set m := (l.dropWhile (· = ' ')).reverse.dropWhile (· = ' ') with hm
  have hm' : m ≠ [] := by intro h0; rw [h0] at h; exact h rfl
  obtain ⟨a, t, hat⟩ := List.exists_cons_of_ne_nil hm'
  refine ⟨a, ?_, ?_⟩
  · rw [hat]; exact List.mem_reverse.mpr (by simp)
  · have := dropWhile_head_false (p := fun c => decide (c = ' ')) (hm ▸ hat)
    simpa using this

theorem splitTokensAux_eq_nil :
    ∀ (l cur : List Char), splitTokensAux cur l = [] → cur = [] ∧ ∀ c ∈ l, c = ' ' := by
  intro l
  induction l with
  | nil =>
    intro cur h
    unfold splitTokensAux at h
    by_cases hc : cur.isEmpty
    · exact ⟨List.isEmpty_iff.mp hc, by intro c hc2; exact absurd hc2 (List.not_mem_nil c)⟩
    · simp [hc] at h
  | cons c rest ih =>
    intro cur h
    unfold splitTokensAux at h
    by_cases hsp : c = ' '
    · by_cases hc : cur.isEmpty
      · simp [hsp, hc] at h
        obtain ⟨_, h2⟩ := ih [] h
        refine ⟨List.isEmpty_iff.mp hc, ?_⟩
        intro x hx
        rcases List.mem_cons.mp hx with hx | hx
        · rw [hx, hsp]
        · exact h2 x hx
      · simp [hsp, hc] at h
    · simp [hsp] at h
      obtain ⟨h1, _⟩ := ih (c :: cur) h
      exact absurd h1 (by simp)

theorem splitTokensAux_mem_ne_nil :
    ∀ (l cur : List Char) t, t ∈ splitTokensAux cur l → t ≠ [] := by
  intro l
  induction l with
  | nil =>
    intro cur t h
    unfold splitTokensAux at h
    by_cases hc : cur.isEmpty
    · simp [hc] at h
    · simp [hc] at h
      subst h
      simp only [ne_eq, List.reverse_eq_nil_iff]
      intro h0
      exact hc (by rw [h0]; rfl)
  | cons c rest ih =>
    intro cur t h
    unfold splitTokensAux at h
    by_cases hsp : c = ' '
    · by_cases hc : cur.isEmpty
      · simp [hsp, hc] at h
        exact ih [] t h
      · simp [hsp, hc] at h
        rcases h with h | h
        · subst h
          simp only [ne_eq, List.reverse_eq_nil_iff]
          intro h0
          rw [h0] at hc
          exact hc rfl
        · exact ih [] t h
    · simp [hsp] at h
      exact ih (c :: cur) t h

theorem containsL_nil_of_ne_nil {t : List Char} (h : t ≠ []) : containsL t [] = false := by
  obtain ⟨a, t', h'⟩ := List.exists_cons_of_ne_nil h
  rw [h']
  rfl

theorem normS_tokens_ne_nil {s : String} (h : normS s ≠ "") : splitTokens (normS s) ≠ [] := by
  intro h0
  obtain ⟨hcur, hall⟩ := splitTokensAux_eq_nil (normS s).data [] h0
  have hne : (normS s).data ≠ [] := by
    intro hd
    apply h
    have h1 : normS s = String.mk (normS s).data := rfl
    rw [h1, hd]
  have hdata : (normS s).data = trimSpaces (collapseSeps false (s.data.map Char.toLower)) := rfl
  rw [hdata] at hne hall
  obtain ⟨c, hc, hcs⟩ := trimSpaces_has_nonspace hne
  exact hcs (hall c hc)

/-- The `sameState` helper is exactly the region clause of the spec's
acceptance predicate: the `fCode` non-emptiness guard of the source is
redundant, since a found code equal to a two-letter expectation is
itself non-empty. -/
theorem sameState_spec (meta : MetaRec) (es : Option String) :
    sameState meta.state meta.state_code es
      = (!truthy es || specRegionMatch meta (es.getD "")) := by
  cases es with
  | none => rfl
  | some s =>
    by_cases hs : s = ""
    · subst hs; rfl
    · have ht : truthy (some s) = true := truthy_some hs
      have step : sameState meta.state meta.state_code (some s)
          = ((!(upperS (meta.state_code.getD "")).isEmpty &&
                (upperS s).length == 2 &&
                upperS (meta.state_code.getD "") == upperS s) ||
              (!(normO meta.state).isEmpty &&
                normO meta.state == normS (jsOr (US_STATES (upperS s)) s))) := by
        rw [sameState, ht]
        rfl
      have key : (!(upperS (meta.state_code.getD "")).isEmpty &&
            (upperS s).length == 2 &&
            upperS (meta.state_code.getD "") == upperS s)
          = ((upperS s).length == 2 &&
              upperS (meta.state_code.getD "") == upperS s) := by
        cases hq : upperS (meta.state_code.getD "") == upperS s
        · simp [hq]
        · have hfe : upperS (meta.state_code.getD "") = upperS s := eq_of_beq hq
          rw [hfe]
          cases hl : (upperS s).length == 2
          · simp [hl]
          · have hne : upperS s ≠ "" := by
              intro h0
              rw [h0] at hl
              exact absurd hl (by decide)
            simp [hl, strEmpty_false hne]
      rw [step, key, ht]
      rfl

/-- The `cityTokensMatch` helper equals the amended city clause: the
source's early rejection on an empty normalized hit-city is implied by
the token test itself (a non-empty token is never a substring of an
empty string). -/
theorem cityTokensMatch_spec (meta : MetaRec) (ec : Option String) :
    cityTokensMatch meta.city ec
      = (!truthy ec || specCityMatchAmended meta (ec.getD "")) := by
  cases ec with
  | none => rfl
  | some s =>
    by_cases hs : s = ""
    · subst hs; rfl
    · have ht : truthy (some s) = true := truthy_some hs
      have step : cityTokensMatch meta.city (some s)
          = (if (normO meta.city).isEmpty || (normS s).isEmpty then false
             else (splitTokens (normS s)).all
               (fun w => containsL w (normO meta.city).data)) := by
        rw [cityTokensMatch, ht]
        rfl
      rw [step, ht]
      show _ = specCityMatchAmended meta s
      rw [specCityMatchAmended]
      by_cases he : normS s = ""
      · simp [strEmpty_true he]
      · have he' : (normS s).isEmpty = false := strEmpty_false he
        by_cases hf : normO meta.city = ""
        · have hf' : (normO meta.city).isEmpty = true := strEmpty_true hf
          have hall : (splitTokens (normS s)).all
              (fun w => containsL w (normO meta.city).data) = false := by
            obtain ⟨t, ts, hsplit⟩ :=
              List.exists_cons_of_ne_nil (normS_tokens_ne_nil he)
            have htmem : t ∈ splitTokensAux [] (normS s).data := by
              rw [show splitTokensAux [] (normS s).data = splitTokens (normS s) from rfl,
                hsplit]
              exact List.mem_cons_self t ts
            have htne : t ≠ [] := splitTokensAux_mem_ne_nil _ _ t htmem
            have hfd : (normO meta.city).data = [] := by rw [hf]
            rw [hsplit, hfd]
            simp only [List.all_cons, containsL_nil_of_ne_nil htne, Bool.false_and]
          simp [hf', he', hall]
        · have hf' : (normO meta.city).isEmpty = false := strEmpty_false hf
          simp [hf', he']

/-- C1 (counterexample): the claimed biconditional fails.  With no region
expectation and the expected city `"-"` (a city IS expected: the string
is non-empty, hence truthy), the claim's clause (c) is vacuously
satisfied — the normalized expected city has no tokens — so the claim
accepts; but `acceptHit` rejects, because `cityTokensMatch` returns
`false` whenever the normalized expectation is empty. -/
theorem c1_locality_filter_counterexample :
    acceptHit ⟨none, none, none, none⟩ (some "-") none = false ∧
      acceptSpecC1 ⟨none, none, none, none⟩ (some "-") none = true := by
  constructor
  · decide
  · decide

/-- C1 (amended): `acceptHit` accepts exactly when (a) if a region is
expected the country code is the supported country (US), (b) if a region
is expected the region matches by two-letter code case-insensitively or
by normalized full name, and (c) if a city is expected the normalized
expected city is non-empty and each of its whitespace tokens occurs in
the hit's normalized city; absent (falsy) expectations impose no
constraint.  The amendment relative to the claim is the non-emptiness
requirement in (c): a punctuation-only city expectation rejects every
hit. -/
theorem c1_locality_filter (meta : MetaRec) (expectCity expectState : Option String) :
    acceptHit meta expectCity expectState
      = acceptSpecAmended meta expectCity expectState := by
  have hSS := sameState_spec meta expectState
  have hCT := cityTokensMatch_spec meta expectCity
  rw [acceptHit, acceptSpecAmended, hSS, hCT]
  cases hA : truthy expectState <;> cases hB : inUS meta.country_code <;>
    cases hR : specRegionMatch meta (expectState.getD "") <;>
    cases hC : truthy expectCity <;>
    cases hS : specCityMatchAmended meta (expectCity.getD "") <;> simp

/-! ### Response mapping (C5) and bias normalization (C10) -/

theorem listEmpty_false {α : Type} {l : List α} (h : l ≠ []) : l.isEmpty = false := by
  cases hl : l.isEmpty
  · rfl
  · exact absurd (List.isEmpty_iff.mp hl) h

/-- C5: the status mapping of the handler — a missing or
blank-after-trim query is a 400 `Missing q`; with a usable query, strict
mode maps an exhausted chain to 404, a hit to 200 with that hit, and a
propagating exception to 500 with its message; candidate mode maps an
empty aggregation to 404, a non-empty one to 200 with the first eight
entries, and a propagating exception to 500.  These branches are
exhaustive, so 200 occurs exactly in the two success cases. -/
theorem c5_response_mapping (env : Env) (w : World) (req : Req) :
    (req.q = none → POST env w req = (400, .errorB "Missing q")) ∧
    (∀ q0, req.q = some q0 → jsTrim q0 = "" →
      POST env w req = (400, .errorB "Missing q")) ∧
    (∀ q0, req.q = some q0 → jsTrim q0 ≠ "" → req.candidates = false →
      (∀ tr, strictResolve env w (jsTrim q0) (biasOf req.near)
            req.expectCity req.expectState = .ok (none, tr) →
        POST env w req = (404, .errorB "No precise match found in specified city/state")) ∧
      (∀ h tr, strictResolve env w (jsTrim q0) (biasOf req.near)
            req.expectCity req.expectState = .ok (some h, tr) →
        POST env w req = (200, .hitB h)) ∧
      (∀ m, strictResolve env w (jsTrim q0) (biasOf req.near)
            req.expectCity req.expectState = .thrown m →
        POST env w req = (500, .errorB m))) ∧
    (∀ q0, req.q = some q0 → jsTrim q0 ≠ "" → req.candidates = true →
      (gatherCandidates env w (jsTrim q0) (biasOf req.near)
            req.expectCity req.expectState = .ok [] →
        POST env w req = (404, .errorB "No candidates")) ∧
      (∀ l, gatherCandidates env w (jsTrim q0) (biasOf req.near)
            req.expectCity req.expectState = .ok l → l ≠ [] →
        POST env w req = (200, .candB (l.take 8))) ∧
      (∀ m, gatherCandidates env w (jsTrim q0) (biasOf req.near)
            req.expectCity req.expectState = .thrown m →
        POST env w req = (500, .errorB m))) := by
  refine ⟨?_, ?_, ?_, ?_⟩
  · intro hq; simp [POST, hq]
  · intro q0 hq htrim
    simp [POST, hq, strEmpty_true htrim]
  · intro q0 hq htrim hcand
    refine ⟨?_, ?_, ?_⟩
    · intro tr hsr
      simp [POST, hq, strEmpty_false htrim, hcand, hsr]
    · intro h tr hsr
      simp [POST, hq, strEmpty_false htrim, hcand, hsr]
    · intro m hsr
      simp [POST, hq, strEmpty_false htrim, hcand, hsr]
  · intro q0 hq htrim hcand
    refine ⟨?_, ?_, ?_⟩
    · intro hg
      simp [POST, hq, strEmpty_false htrim, hcand, hg]
    · intro l hg hne
      simp [POST, hq, strEmpty_false htrim, hcand, hg, listEmpty_false hne]
    · intro m hg
      simp [POST, hq, strEmpty_false htrim, hcand, hg]

/-- Witness for C5: a missing query gives the 400, and a fully
non-success world in strict mode gives the 404. -/
theorem c5_response_mapping_witness :
    POST envAllKeys worldAllNotOk ⟨none, none, none, none, false⟩
        = (400, .errorB "Missing q") ∧
      POST envAllKeys worldAllNotOk ⟨some "abc", none, none, none, false⟩
        = (404, .errorB "No precise match found in specified city/state") :=
  ⟨(c5_response_mapping envAllKeys worldAllNotOk ⟨none, none, none, none, false⟩).1 rfl,
   ((c5_response_mapping envAllKeys worldAllNotOk
        ⟨some "abc", none, none, none, false⟩).2.2.1 "abc" rfl (by decide) rfl).1
     [("google_findplace", "abc"), ("geoapify", "abc"), ("mapbox", "abc"),
      ("google_text", "abc"), ("nominatim", "abc")] (by decide)⟩

/-- C10: a `near` object whose `lat` or `lng` is not a finite number is
normalized to a null bias before any resolution starts, so the request
behaves exactly as if `near` were omitted — in either mode. -/
theorem c10_nonfinite_near (env : Env) (w : World) (req : Req) (n : NearJson)
    (hnear : req.near = some n) (hdeg : n.latJ = none ∨ n.lngJ = none) :
    POST env w req = POST env w { req with near := none } := by
  obtain ⟨rq, rnear, rec, res', rcand⟩ := req
  simp only at hnear
  subst hnear
  have hb : biasOf (some n) = biasOf (none : Option NearJson) := by
    rcases hdeg with h | h
    · simp [biasOf, h]
    · cases hn : n.latJ <;> simp [biasOf, h, hn]
  simp only [POST]
  rw [hb]

/-- Witness for C10: a `near` whose `lat` is a string (not a finite
number) resolves exactly like an absent `near`. -/
theorem c10_nonfinite_near_witness :
    POST envAllKeys worldAllNotOk ⟨some "x", some ⟨none, some ⟨5, 1⟩⟩, none, none, false⟩
      = POST envAllKeys worldAllNotOk ⟨some "x", none, none, none, false⟩ :=
  c10_nonfinite_near envAllKeys worldAllNotOk
    ⟨some "x", some ⟨none, some ⟨5, 1⟩⟩, none, none, false⟩ ⟨none, some ⟨5, 1⟩⟩ rfl (Or.inl rfl)

/-! ### Strict short-circuit (C2) -/

/-- C2: the strict resolver tries the adapters in the fixed order Google
Find Place, Geoapify, Mapbox, Google Text, Nominatim, with early exit:
whenever adapter `k` is the first whose outcome is a (precise,
locality-accepted) hit, exactly adapters `0..k` are invoked — each with
the request's query — and adapter `k`'s hit is the answer; when every
adapter's outcome is "no hit", all five are invoked and the resolver
reports not-found. -/
theorem c2_strict_short_circuit (env : Env) (w : World) (q : String)
    (near : Option (JNum × JNum)) (ec es : Option String) :
    (∀ (k : Fin 5) (h : PreciseHit),
        (∀ j : Fin 5, j < k → adapterResult env w q near ec es j = .ok none) →
        adapterResult env w q near ec es k = .ok (some h) →
        strictResolve env w q near ec es
          = .ok (some h, (providerOrder.map (fun n => (n, q))).take (k.val + 1))) ∧
      ((∀ j : Fin 5, adapterResult env w q near ec es j = .ok none) →
        strictResolve env w q near ec es
          = .ok (none, providerOrder.map (fun n => (n, q)))) := by
  constructor
  · intro k h hprev hk
    fin_cases k
    · simp only [adapterResult] at hk
      simp [strictResolve, hk, providerOrder]
    · have h0 := hprev ⟨0, by norm_num⟩ (by decide)
      simp only [adapterResult] at h0 hk
      simp [strictResolve, h0, hk, providerOrder]
    · have h0 := hprev ⟨0, by norm_num⟩ (by decide)
      have h1 := hprev ⟨1, by norm_num⟩ (by decide)
      simp only [adapterResult] at h0 h1 hk
      simp [strictResolve, h0, h1, hk, providerOrder]
    · have h0 := hprev ⟨0, by norm_num⟩ (by decide)
      have h1 := hprev ⟨1, by norm_num⟩ (by decide)
      have h2 := hprev ⟨2, by norm_num⟩ (by decide)
      simp only [adapterResult] at h0 h1 h2 hk
      simp [strictResolve, h0, h1, h2, hk, providerOrder]
    · have h0 := hprev ⟨0, by norm_num⟩ (by decide)
      have h1 := hprev ⟨1, by norm_num⟩ (by decide)
      have h2 := hprev ⟨2, by norm_num⟩ (by decide)
      have h3 := hprev ⟨3, by norm_num⟩ (by decide)
      simp only [adapterResult] at h0 h1 h2 h3 hk
      simp [strictResolve, h0, h1, h2, h3, hk, providerOrder]
  · intro hall
    have h0 := hall ⟨0, by norm_num⟩
    have h1 := hall ⟨1, by norm_num⟩
    have h2 := hall ⟨2, by norm_num⟩
    have h3 := hall ⟨3, by norm_num⟩
    have h4 := hall ⟨4, by norm_num⟩
    simp only [adapterResult] at h0 h1 h2 h3 h4
    simp [strictResolve, h0, h1, h2, h3, h4, providerOrder]

/-- Witness for C2: with only the Mapbox token present and Mapbox
holding a precise accepted feature, adapter 3 (index 2) wins: exactly
the first three adapters are invoked and the Mapbox hit is returned. -/
theorem c2_strict_short_circuit_witness :
    strictResolve envMapboxOnly worldMapboxGlen "x" none none none
      = .ok (some hitMapboxGlen,
          [("google_findplace", "x"), ("geoapify", "x"), ("mapbox", "x")]) :=
  (c2_strict_short_circuit envMapboxOnly worldMapboxGlen "x" none none none).1
    ⟨2, by norm_num⟩ hitMapboxGlen (by decide) (by decide)


/-! ### Query construction (C9) -/

/-- C9 (counterexample): the claimed specificity test does not exist.
The raw address text `"1 Main St, Springfield"` contains a comma —
"looks specific" under the claim, so it should be sent unmodified — yet
the query builder still appends the city/state context to it. -/
theorem c9_query_counterexample :
    containsS "," "1 Main St, Springfield" = true ∧
      onFindAddressQuery "1 Main St, Springfield" "Desoto" "TX"
        = "1 Main St, Springfield, Desoto, TX" ∧
      onFindAddressQuery "1 Main St, Springfield" "Desoto" "TX"
        ≠ "1 Main St, Springfield" := by
  refine ⟨by decide, by decide, by decide⟩

/-- C9 (amended): the query is built by unconditionally joining the
truthy fields (raw address text, city, state code) with commas — there
is no comma/length specificity test — and within a request the strict
chain hands every adapter it invokes one identical query string. -/
theorem c9_query_built_once (env : Env) (w : World) (q : String)
    (near : Option (JNum × JNum)) (ec es : Option String) :
    (∀ hit tr, strictResolve env w q near ec es = .ok (hit, tr) →
      ∀ p ∈ tr, p.2 = q) ∧
    (∀ a c s : String, a ≠ "" → c ≠ "" → s ≠ "" →
      onFindAddressQuery a c s = a ++ ", " ++ (c ++ ", " ++ s)) := by
  constructor
  · intro hit tr hsr
    unfold strictResolve at hsr
    repeat' split at hsr
    all_goals first
      | (cases hsr; intro p hp; simp only [List.mem_cons, List.mem_singleton,
          List.not_mem_nil, or_false] at hp
         rcases hp with rfl | rfl | rfl | rfl | rfl <;> rfl)
      | cases hsr
  · intro a c s ha hc hs
    simp [onFindAddressQuery, joinSep, strEmpty_false ha, strEmpty_false hc,
      strEmpty_false hs]

/-- Witness for C9: the instrumented chain on a fully non-success world
hands `"abc"` to the last adapter too, and a concrete join. -/
theorem c9_query_built_once_witness :
    (("nominatim", "abc") : String × String).2 = "abc" ∧
      onFindAddressQuery "1 Main St" "Desoto" "TX"
        = "1 Main St" ++ ", " ++ ("Desoto" ++ ", " ++ "TX") :=
  ⟨(c9_query_built_once envAllKeys worldAllNotOk "abc" none none none).1 none
      [("google_findplace", "abc"), ("geoapify", "abc"), ("mapbox", "abc"),
        ("google_text", "abc"), ("nominatim", "abc")]
      (by decide) ("nominatim", "abc") (by decide),
    (c9_query_built_once envAllKeys worldAllNotOk "abc" none none none).2
      "1 Main St" "Desoto" "TX" (by decide) (by decide) (by decide)⟩

/-! ### Adapter failure handling (C6) -/

/-- C6 (amended): a non-success HTTP response makes every adapter's
`findHit` return `none` and its `findCandidates` return `[]`; a parsed
response with no precision-passing entry makes every `findHit` return
`none`, and makes `findCandidates` return `[]` for the three adapters
that filter candidates by precision (Geoapify, Mapbox, Nominatim) — the
two Google `findCandidates` operations apply no precision filter (the
amendment); and when every provider returns a non-success status, strict
mode terminates with the 404 not-found response, not a transport
failure. -/
theorem c6_adapter_failure (env : Env) (w : World) (q : String)
    (near : Option (JNum × JNum)) (ec es : Option String) :
    (w.googleFindPlace q near = .notOk →
      fromGoogleFindPlace env w q near ec es = .ok none ∧
        candidatesGoogleFindPlace env w q near = .ok []) ∧
    (w.googleText q near = .notOk →
      fromGoogleText env w q near ec es = .ok none ∧
        candidatesGoogleText env w q near = .ok []) ∧
    (w.geoapify q near = .notOk →
      fromGeoapify env w q near ec es = .ok none ∧
        candidatesGeoapify env w q near = .ok []) ∧
    (w.mapbox q near = .notOk →
      fromMapbox env w q near ec es = .ok none ∧
        candidatesMapbox env w q near = .ok []) ∧
    (w.nominatim q near = .notOk →
      fromNominatim env w q near ec es = .ok none ∧
        candidatesNominatim env w q near = .ok []) ∧
    (∀ l, w.googleFindPlace q near = .ok (some l) →
      (∀ c ∈ l, isPreciseGoogle c = false) →
      fromGoogleFindPlace env w q near ec es = .ok none) ∧
    (∀ l, w.googleText q near = .ok (some l) →
      (∀ c ∈ l, isPreciseGoogle c = false) →
      fromGoogleText env w q near ec es = .ok none) ∧
    (∀ l, w.geoapify q near = .ok (some l) →
      (∀ f ∈ l, isPreciseGeoapify f = false) →
      fromGeoapify env w q near ec es = .ok none ∧
        candidatesGeoapify env w q near = .ok []) ∧
    (∀ l, w.mapbox q near = .ok (some l) →
      (∀ f ∈ l, isPreciseMapbox f = false) →
      fromMapbox env w q near ec es = .ok none ∧
        candidatesMapbox env w q near = .ok []) ∧
    (∀ l, w.nominatim q near = .ok (some l) →
      (∀ f ∈ l, isPreciseNominatim f = false) →
      fromNominatim env w q near ec es = .ok none ∧
        candidatesNominatim env w q near = .ok []) ∧
    (w.googleFindPlace q near = .notOk → w.googleText q near = .notOk →
      w.geoapify q near = .notOk → w.mapbox q near = .notOk →
      w.nominatim q near = .notOk →
      ∀ req q0, req.q = some q0 → jsTrim q0 = q → q ≠ "" →
        req.candidates = false → biasOf req.near = near →
        req.expectCity = ec → req.expectState = es →
        POST env w req
          = (404, .errorB "No precise match found in specified city/state")) := by
  refine ⟨?_, ?_, ?_, ?_, ?_, ?_, ?_, ?_, ?_, ?_, ?_⟩
  · intro h
    exact ⟨by cases hk : env.googleKey <;> simp [fromGoogleFindPlace, hk, h],
      by cases hk : env.googleKey <;> simp [candidatesGoogleFindPlace, hk, h]⟩
  · intro h
    exact ⟨by cases hk : env.googleKey <;> simp [fromGoogleText, hk, h],
      by cases hk : env.googleKey <;> simp [candidatesGoogleText, hk, h]⟩
  · intro h
    exact ⟨by cases hk : env.geoapifyKey <;> simp [fromGeoapify, hk, h],
      by cases hk : env.geoapifyKey <;> simp [candidatesGeoapify, hk, h]⟩
  · intro h
    exact ⟨by cases hk : env.mapboxToken <;> simp [fromMapbox, hk, h],
      by cases hk : env.mapboxToken <;> simp [candidatesMapbox, hk, h]⟩
  · intro h
    exact ⟨by simp [fromNominatim, h], by simp [candidatesNominatim, h]⟩
  · intro l h hall
    cases hk : env.googleKey
    · simp [fromGoogleFindPlace, hk]
    · cases l with
      | nil => simp [fromGoogleFindPlace, hk, h]
      | cons c t => simp [fromGoogleFindPlace, hk, h, hall c (by simp)]
  · intro l h hall
    have hf : l.find? isPreciseGoogle = none :=
      List.find?_eq_none.mpr (fun x hx => by simp [hall x hx])
    cases hk : env.googleKey <;> simp [fromGoogleText, hk, h, hf]
  · intro l h hall
    have hf : l.find? isPreciseGeoapify = none :=
      List.find?_eq_none.mpr (fun x hx => by simp [hall x hx])
    have hfil : l.filter isPreciseGeoapify = [] :=
      List.filter_eq_nil_iff.mpr (fun x hx => by simp [hall x hx])
    exact ⟨by cases hk : env.geoapifyKey <;> simp [fromGeoapify, hk, h, hf],
      by cases hk : env.geoapifyKey <;> simp [candidatesGeoapify, hk, h, hfil]⟩
  · intro l h hall
    have hf : l.find? isPreciseMapbox = none :=
      List.find?_eq_none.mpr (fun x hx => by simp [hall x hx])
    have hfil : l.filter isPreciseMapbox = [] :=
      List.filter_eq_nil_iff.mpr (fun x hx => by simp [hall x hx])
    exact ⟨by cases hk : env.mapboxToken <;> simp [fromMapbox, hk, h, hf],
      by cases hk : env.mapboxToken <;> simp [candidatesMapbox, hk, h, hfil]⟩
  · intro l h hall
    have hf : l.find? isPreciseNominatim = none :=
      List.find?_eq_none.mpr (fun x hx => by simp [hall x hx])
    have hfil : l.filter isPreciseNominatim = [] :=
      List.filter_eq_nil_iff.mpr (fun x hx => by simp [hall x hx])
    exact ⟨by simp [fromNominatim, h, hf], by simp [candidatesNominatim, h, hfil]⟩
  · intro h1 h2 h3 h4 h5 req q0 hq0 htr hqne hcand hbias hec hes
    have e1 : fromGoogleFindPlace env w q near ec es = .ok none := by
      cases hk : env.googleKey <;> simp [fromGoogleFindPlace, hk, h1]
    have e2 : fromGeoapify env w q near ec es = .ok none := by
      cases hk : env.geoapifyKey <;> simp [fromGeoapify, hk, h3]
    have e3 : fromMapbox env w q near ec es = .ok none := by
      cases hk : env.mapboxToken <;> simp [fromMapbox, hk, h4]
    have e4 : fromGoogleText env w q near ec es = .ok none := by
      cases hk : env.googleKey <;> simp [fromGoogleText, hk, h2]
    have e5 : fromNominatim env w q near ec es = .ok none := by
      simp [fromNominatim, h5]
    have hemp : q.isEmpty = false := strEmpty_false hqne
    simp [POST, hq0, hemp, hcand, htr, hbias, hec, hes, strictResolve,
      e1, e2, e3, e4, e5]

/-- C6 (counterexample): Google Find Place's `findCandidates` applies no
precision test — a successfully parsed response whose only entry fails
the precision test still contributes that entry as a candidate, not the
empty list the claim demands. -/
theorem c6_adapter_failure_counterexample :
    (∀ c ∈ [googleNonPrecise], isPreciseGoogle c = false) ∧
      candidatesGoogleFindPlace envAllKeys worldGoogleLoose "x" none
        = .ok [⟨"google_findplace", "Springfield Area", some ⟨1, 1⟩,
            some ⟨2, 1⟩, none, none, none, none⟩] ∧
      candidatesGoogleFindPlace envAllKeys worldGoogleLoose "x" none ≠ .ok [] := by
  refine ⟨by decide, by decide, by decide⟩

/-- Witness for C6: all providers non-success means a 404, not a 500. -/
theorem c6_adapter_failure_witness :
    POST envAllKeys worldAllNotOk ⟨some "zz", none, none, none, false⟩
      = (404, .errorB "No precise match found in specified city/state") :=
  (c6_adapter_failure envAllKeys worldAllNotOk "zz" none none
    none).2.2.2.2.2.2.2.2.2.2 rfl rfl rfl rfl rfl
    ⟨some "zz", none, none, none, false⟩ "zz" rfl (by decide) (by decide)
    rfl rfl rfl rfl

/-! ### Candidate-mode failure isolation (C7) -/

theorem candidatesGoogleFindPlace_thrown {env : Env} {w : World} {q : String}
    {near : Option (JNum × JNum)} {m : String}
    (h : candidatesGoogleFindPlace env w q near = .thrown m) :
    w.googleFindPlace q near = .thrown m := by
  unfold candidatesGoogleFindPlace at h
  cases hk : env.googleKey <;> rw [hk] at h
  · simp at h
  · cases hw : w.googleFindPlace q near <;> rw [hw] at h <;> simp_all

theorem candidatesGoogleText_thrown {env : Env} {w : World} {q : String}
    {near : Option (JNum × JNum)} {m : String}
    (h : candidatesGoogleText env w q near = .thrown m) :
    w.googleText q near = .thrown m := by
  unfold candidatesGoogleText at h
  cases hk : env.googleKey <;> rw [hk] at h
  · simp at h
  · cases hw : w.googleText q near <;> rw [hw] at h <;> simp_all

theorem candidatesGeoapify_thrown {env : Env} {w : World} {q : String}
    {near : Option (JNum × JNum)} {m : String}
    (h : candidatesGeoapify env w q near = .thrown m) :
    w.geoapify q near = .thrown m := by
  unfold candidatesGeoapify at h
  cases hk : env.geoapifyKey <;> rw [hk] at h
  · simp at h
  · cases hw : w.geoapify q near <;> rw [hw] at h <;> simp_all

theorem candidatesMapbox_thrown {env : Env} {w : World} {q : String}
    {near : Option (JNum × JNum)} {m : String}
    (h : candidatesMapbox env w q near = .thrown m) :
    w.mapbox q near = .thrown m := by
  unfold candidatesMapbox at h
  cases hk : env.mapboxToken <;> rw [hk] at h
  · simp at h
  · cases hw : w.mapbox q near <;> rw [hw] at h <;> simp_all

theorem candidatesNominatim_thrown {env : Env} {w : World} {q : String}
    {near : Option (JNum × JNum)} {m : String}
    (h : candidatesNominatim env w q near = .thrown m) :
    w.nominatim q near = .thrown m := by
  unfold candidatesNominatim at h
  cases hw : w.nominatim q near <;> rw [hw] at h <;> simp_all

theorem candidatesGoogleFindPlace_congr {env : Env} {w1 w2 : World} {q : String}
    {near : Option (JNum × JNum)} (h : w1.googleFindPlace = w2.googleFindPlace) :
    candidatesGoogleFindPlace env w1 q near = candidatesGoogleFindPlace env w2 q near := by
  unfold candidatesGoogleFindPlace; rw [h]

theorem candidatesGoogleText_congr {env : Env} {w1 w2 : World} {q : String}
    {near : Option (JNum × JNum)} (h : w1.googleText = w2.googleText) :
    candidatesGoogleText env w1 q near = candidatesGoogleText env w2 q near := by
  unfold candidatesGoogleText; rw [h]

theorem candidatesGeoapify_congr {env : Env} {w1 w2 : World} {q : String}
    {near : Option (JNum × JNum)} (h : w1.geoapify = w2.geoapify) :
    candidatesGeoapify env w1 q near = candidatesGeoapify env w2 q near := by
  unfold candidatesGeoapify; rw [h]

theorem candidatesMapbox_congr {env : Env} {w1 w2 : World} {q : String}
    {near : Option (JNum × JNum)} (h : w1.mapbox = w2.mapbox) :
    candidatesMapbox env w1 q near = candidatesMapbox env w2 q near := by
  unfold candidatesMapbox; rw [h]

theorem candidatesNominatim_congr {env : Env} {w1 w2 : World} {q : String}
    {near : Option (JNum × JNum)} (h : w1.nominatim = w2.nominatim) :
    candidatesNominatim env w1 q near = candidatesNominatim env w2 q near := by
  unfold candidatesNominatim; rw [h]

/-- C7 (amended): the five `findCandidates` calls are joined, and a
provider that fails with a non-success status or an unparseable payload
contributes exactly the empty candidate list — replacing its response
with an empty parsed one changes nothing, and as long as no provider
call rejects, the aggregation completes over the remaining buckets.  The
amendment: an adapter whose call throws does abort the whole aggregation
(the `findCandidates` bodies have no per-adapter `try`), unlike what the
claim states. -/
theorem c7_candidate_failure_isolation (env : Env) (w : World) (q : String)
    (near : Option (JNum × JNum)) (ec es : Option String) :
    ((∀ m, w.googleFindPlace q near ≠ .thrown m) →
     (∀ m, w.geoapify q near ≠ .thrown m) →
     (∀ m, w.mapbox q near ≠ .thrown m) →
     (∀ m, w.googleText q near ≠ .thrown m) →
     (∀ m, w.nominatim q near ≠ .thrown m) →
      ∃ l, gatherCandidates env w q near ec es = .ok l) ∧
    ((w.googleFindPlace q near = .notOk ∨ w.googleFindPlace q near = .ok none) →
      gatherCandidates env { w with googleFindPlace := fun _ _ => .ok (some []) }
          q near ec es
        = gatherCandidates env w q near ec es) ∧
    ((w.geoapify q near = .notOk ∨ w.geoapify q near = .ok none) →
      gatherCandidates env { w with geoapify := fun _ _ => .ok (some []) }
          q near ec es
        = gatherCandidates env w q near ec es) ∧
    ((w.mapbox q near = .notOk ∨ w.mapbox q near = .ok none) →
      gatherCandidates env { w with mapbox := fun _ _ => .ok (some []) }
          q near ec es
        = gatherCandidates env w q near ec es) ∧
    ((w.googleText q near = .notOk ∨ w.googleText q near = .ok none) →
      gatherCandidates env { w with googleText := fun _ _ => .ok (some []) }
          q near ec es
        = gatherCandidates env w q near ec es) ∧
    ((w.nominatim q near = .notOk ∨ w.nominatim q near = .ok none) →
      gatherCandidates env { w with nominatim := fun _ _ => .ok (some []) }
          q near ec es
        = gatherCandidates env w q near ec es) := by
  refine ⟨?_, ?_, ?_, ?_, ?_, ?_⟩
  · intro n1 n2 n3 n4 n5
    cases hb1 : candidatesGoogleFindPlace env w q near with
    | thrown m => exact absurd (candidatesGoogleFindPlace_thrown hb1) (n1 m)
    | ok b1 =>
      cases hb2 : candidatesGeoapify env w q near with
      | thrown m => exact absurd (candidatesGeoapify_thrown hb2) (n2 m)
      | ok b2 =>
        cases hb3 : candidatesMapbox env w q near with
        | thrown m => exact absurd (candidatesMapbox_thrown hb3) (n3 m)
        | ok b3 =>
          cases hb4 : candidatesGoogleText env w q near with
          | thrown m => exact absurd (candidatesGoogleText_thrown hb4) (n4 m)
          | ok b4 =>
            cases hb5 : candidatesNominatim env w q near with
            | thrown m => exact absurd (candidatesNominatim_thrown hb5) (n5 m)
            | ok b5 =>
              refine ⟨dedupeScored []
                (sortScored (scorePipeline (b1 ++ b2 ++ b3 ++ b4 ++ b5) ec es)), ?_⟩
              simp [gatherCandidates, hb1, hb2, hb3, hb4, hb5]
  · intro h
    have hrepl : candidatesGoogleFindPlace env
        { w with googleFindPlace := fun _ _ => .ok (some []) } q near = .ok [] := by
      cases hk : env.googleKey <;> simp [candidatesGoogleFindPlace, hk]
    have horig : candidatesGoogleFindPlace env w q near = .ok [] := by
      rcases h with h | h <;> cases hk : env.googleKey <;>
        simp [candidatesGoogleFindPlace, hk, h]
    have g2 : candidatesGeoapify env { w with googleFindPlace := fun _ _ => .ok (some []) } q near
        = candidatesGeoapify env w q near := candidatesGeoapify_congr rfl
    have g3 : candidatesMapbox env { w with googleFindPlace := fun _ _ => .ok (some []) } q near
        = candidatesMapbox env w q near := candidatesMapbox_congr rfl
    have g4 : candidatesGoogleText env { w with googleFindPlace := fun _ _ => .ok (some []) } q near
        = candidatesGoogleText env w q near := candidatesGoogleText_congr rfl
    have g5 : candidatesNominatim env { w with googleFindPlace := fun _ _ => .ok (some []) } q near
        = candidatesNominatim env w q near := candidatesNominatim_congr rfl
    simp only [gatherCandidates, hrepl, horig, g2, g3, g4, g5]
  · intro h
    have hrepl : candidatesGeoapify env
        { w with geoapify := fun _ _ => .ok (some []) } q near = .ok [] := by
      cases hk : env.geoapifyKey <;> simp [candidatesGeoapify, hk]
    have horig : candidatesGeoapify env w q near = .ok [] := by
      rcases h with h | h <;> cases hk : env.geoapifyKey <;>
        simp [candidatesGeoapify, hk, h]
    have g2 : candidatesGoogleFindPlace env { w with geoapify := fun _ _ => .ok (some []) } q near
        = candidatesGoogleFindPlace env w q near := candidatesGoogleFindPlace_congr rfl
    have g3 : candidatesMapbox env { w with geoapify := fun _ _ => .ok (some []) } q near
        = candidatesMapbox env w q near := candidatesMapbox_congr rfl
    have g4 : candidatesGoogleText env { w with geoapify := fun _ _ => .ok (some []) } q near
        = candidatesGoogleText env w q near := candidatesGoogleText_congr rfl
    have g5 : candidatesNominatim env { w with geoapify := fun _ _ => .ok (some []) } q near
        = candidatesNominatim env w q near := candidatesNominatim_congr rfl
    simp only [gatherCandidates, hrepl, horig, g2, g3, g4, g5]
  · intro h
    have hrepl : candidatesMapbox env
        { w with mapbox := fun _ _ => .ok (some []) } q near = .ok [] := by
      cases hk : env.mapboxToken <;> simp [candidatesMapbox, hk]
    have horig : candidatesMapbox env w q near = .ok [] := by
      rcases h with h | h <;> cases hk : env.mapboxToken <;>
        simp [candidatesMapbox, hk, h]
    have g2 : candidatesGoogleFindPlace env { w with mapbox := fun _ _ => .ok (some []) } q near
        = candidatesGoogleFindPlace env w q near := candidatesGoogleFindPlace_congr rfl
    have g3 : candidatesGeoapify env { w with mapbox := fun _ _ => .ok (some []) } q near
        = candidatesGeoapify env w q near := candidatesGeoapify_congr rfl
    have g4 : candidatesGoogleText env { w with mapbox := fun _ _ => .ok (some []) } q near
        = candidatesGoogleText env w q near := candidatesGoogleText_congr rfl
    have g5 : candidatesNominatim env { w with mapbox := fun _ _ => .ok (some []) } q near
        = candidatesNominatim env w q near := candidatesNominatim_congr rfl
    simp only [gatherCandidates, hrepl, horig, g2, g3, g4, g5]
  · intro h
    have hrepl : candidatesGoogleText env
        { w with googleText := fun _ _ => .ok (some []) } q near = .ok [] := by
      cases hk : env.googleKey <;> simp [candidatesGoogleText, hk]
    have horig : candidatesGoogleText env w q near = .ok [] := by
      rcases h with h | h <;> cases hk : env.googleKey <;>
        simp [candidatesGoogleText, hk, h]
    have g2 : candidatesGoogleFindPlace env { w with googleText := fun _ _ => .ok (some []) } q near
        = candidatesGoogleFindPlace env w q near := candidatesGoogleFindPlace_congr rfl
    have g3 : candidatesGeoapify env { w with googleText := fun _ _ => .ok (some []) } q near
        = candidatesGeoapify env w q near := candidatesGeoapify_congr rfl
    have g4 : candidatesMapbox env { w with googleText := fun _ _ => .ok (some []) } q near
        = candidatesMapbox env w q near := candidatesMapbox_congr rfl
    have g5 : candidatesNominatim env { w with googleText := fun _ _ => .ok (some []) } q near
        = candidatesNominatim env w q near := candidatesNominatim_congr rfl
    simp only [gatherCandidates, hrepl, horig, g2, g3, g4, g5]
  · intro h
    have hrepl : candidatesNominatim env
        { w with nominatim := fun _ _ => .ok (some []) } q near = .ok [] := by
      simp [candidatesNominatim]
    have horig : candidatesNominatim env w q near = .ok [] := by
      rcases h with h | h <;> simp [candidatesNominatim, h]
    have g2 : candidatesGoogleFindPlace env { w with nominatim := fun _ _ => .ok (some []) } q near
        = candidatesGoogleFindPlace env w q near := candidatesGoogleFindPlace_congr rfl
    have g3 : candidatesGeoapify env { w with nominatim := fun _ _ => .ok (some []) } q near
        = candidatesGeoapify env w q near := candidatesGeoapify_congr rfl
    have g4 : candidatesMapbox env { w with nominatim := fun _ _ => .ok (some []) } q near
        = candidatesMapbox env w q near := candidatesMapbox_congr rfl
    have g5 : candidatesGoogleText env { w with nominatim := fun _ _ => .ok (some []) } q near
        = candidatesGoogleText env w q near := candidatesGoogleText_congr rfl
    simp only [gatherCandidates, hrepl, horig, g2, g3, g4, g5]

/-- C7 (counterexample): a rejecting Mapbox call aborts the whole
candidate aggregation with a 500 — even though Geoapify had a perfectly
good candidate — where the claim demands the merged candidates of the
remaining adapters. -/
theorem c7_candidate_failure_counterexample :
    POST envAllKeys worldMapboxThrows ⟨some "x", none, none, none, true⟩
      = (500, .errorB "boom") ∧
      candidatesGeoapify envAllKeys worldMapboxThrows "x" none
        = .ok [geoCandNY] := by
  refine ⟨by decide, by decide⟩

/-- Witness for C7: replacing a non-success Mapbox response by an empty
parsed one leaves the aggregation unchanged. -/
theorem c7_candidate_failure_isolation_witness :
    gatherCandidates envAllKeys
        { worldAllNotOk with mapbox := fun _ _ => .ok (some []) } "x" none none none
      = gatherCandidates envAllKeys worldAllNotOk "x" none none none :=
  (c7_candidate_failure_isolation envAllKeys worldAllNotOk "x"
    none none none).2.2.2.1 (Or.inl rfl)

/-! ### Hit well-formedness (C8) -/

theorem jsOr_fallback (a b : Option String) (q : String)
    (h : jsOr a (jsOr b "") ≠ "") : jsOr a (jsOr b q) = jsOr a (jsOr b "") := by
  unfold jsOr jsOrStr
  cases ha : (a.getD "").isEmpty
  · simp [ha]
  · cases hb : (b.getD "").isEmpty
    · simp [ha, hb]
    · exfalso
      apply h
      unfold jsOr jsOrStr
      simp [ha, hb]

theorem fromMapbox_hitOK {env : Env} {w : World} {q : String}
    {near : Option (JNum × JNum)} {ec es : Option String} {h : PreciseHit}
    (hok : ∀ q' b' l, w.mapbox q' b' = .ok (some l) →
      ∀ f ∈ l, isPreciseMapbox f = true → mapEntryOK f)
    (hres : fromMapbox env w q near ec es = .ok (some h)) : hitOK h := by
  unfold fromMapbox at hres
  cases hk : env.mapboxToken <;> rw [hk] at hres
  · simp at hres
  · cases hw : w.mapbox q near <;> rw [hw] at hres
    case thrown m => simp at hres
    case notOk => simp at hres
    case ok parsed =>
      cases parsed with
      | none => simp at hres
      | some l =>
        simp only [Option.getD_some] at hres
        cases hf : l.find? isPreciseMapbox <;> rw [hf] at hres
        case none => simp at hres
        case some best =>
          have hE := hok q near l hw best (List.mem_of_find?_eq_some hf)
            (List.find?_some hf)
          cases hac : acceptHit (mapboxContextMeta best.context) ec es
          · simp [hac] at hres
          · simp [hac] at hres
            subst hres
            simp only [mapEntryOK, List.get?_eq_getElem?] at hE
            exact ⟨hE.1, hE.2.1, hE.2.2⟩

theorem fromGeoapify_hitOK {env : Env} {w : World} {q : String}
    {near : Option (JNum × JNum)} {ec es : Option String} {h : PreciseHit}
    (hok : ∀ q' b' l, w.geoapify q' b' = .ok (some l) →
      ∀ f ∈ l, isPreciseGeoapify f = true → geoEntryOK f)
    (hres : fromGeoapify env w q near ec es = .ok (some h)) : hitOK h := by
  unfold fromGeoapify at hres
  cases hk : env.geoapifyKey <;> rw [hk] at hres
  · simp at hres
  · cases hw : w.geoapify q near <;> rw [hw] at hres
    case thrown m => simp at hres
    case notOk => simp at hres
    case ok parsed =>
      cases parsed with
      | none => simp at hres
      | some l =>
        simp only [Option.getD_some] at hres
        cases hf : l.find? isPreciseGeoapify <;> rw [hf] at hres
        case none => simp at hres
        case some best =>
          have hE := hok q near l hw best (List.mem_of_find?_eq_some hf)
            (List.find?_some hf)
          cases hac : acceptHit (geoapifyMeta best.properties) ec es
          · simp [hac] at hres
          · simp [hac] at hres
            subst hres
            simp only [geoEntryOK] at hE
            exact ⟨hE.1, hE.2.1, hE.2.2⟩

theorem fromNominatim_hitOK {env : Env} {w : World} {q : String}
    {near : Option (JNum × JNum)} {ec es : Option String} {h : PreciseHit}
    (hok : ∀ q' b' l, w.nominatim q' b' = .ok (some l) →
      ∀ f ∈ l, isPreciseNominatim f = true → nomEntryOK f)
    (hres : fromNominatim env w q near ec es = .ok (some h)) : hitOK h := by
  unfold fromNominatim at hres
  cases hw : w.nominatim q near <;> rw [hw] at hres
  case thrown m => simp at hres
  case notOk => simp at hres
  case ok parsed =>
    cases parsed with
    | none => simp at hres
    | some l =>
      simp only [Option.getD_some] at hres
      cases hf : l.find? isPreciseNominatim <;> rw [hf] at hres
      case none => simp at hres
      case some best =>
        have hE := hok q near l hw best (List.mem_of_find?_eq_some hf)
          (List.find?_some hf)
        cases hac : acceptHit (nominatimMeta best.address) ec es
        · simp [hac] at hres
        · simp [hac] at hres
          subst hres
          simp only [nomEntryOK] at hE
          exact ⟨hE.1, hE.2.1, hE.2.2⟩

theorem fromGoogleText_hitOK {env : Env} {w : World} {q : String}
    {near : Option (JNum × JNum)} {ec es : Option String} {h : PreciseHit}
    (hok : ∀ q' b' l, w.googleText q' b' = .ok (some l) →
      ∀ c ∈ l, isPreciseGoogle c = true → googleEntryOK c)
    (hres : fromGoogleText env w q near ec es = .ok (some h)) : hitOK h := by
  unfold fromGoogleText at hres
  cases hk : env.googleKey <;> rw [hk] at hres
  · simp at hres
  · cases hw : w.googleText q near <;> rw [hw] at hres
    case thrown m => simp at hres
    case notOk => simp at hres
    case ok parsed =>
      cases parsed with
      | none => simp at hres
      | some l =>
        simp only [Option.getD_some] at hres
        cases hf : l.find? isPreciseGoogle <;> rw [hf] at hres
        case none => simp at hres
        case some best =>
          have hE := hok q near l hw best (List.mem_of_find?_eq_some hf)
            (List.find?_some hf)
          cases hac : acceptHit (parseGoogleFormattedAddress best.formatted_address) ec es
          · simp [hac] at hres
          · simp [hac] at hres
            subst hres
            simp only [googleEntryOK] at hE
            exact ⟨hE.1, hE.2.1, hE.2.2⟩

theorem fromGoogleFindPlace_hitOK {env : Env} {w : World} {q : String}
    {near : Option (JNum × JNum)} {ec es : Option String} {h : PreciseHit}
    (hok : ∀ q' b' l, w.googleFindPlace q' b' = .ok (some l) →
      ∀ c ∈ l, isPreciseGoogle c = true → googleEntryOK c)
    (hres : fromGoogleFindPlace env w q near ec es = .ok (some h)) : hitOK h := by
  unfold fromGoogleFindPlace at hres
  cases hk : env.googleKey <;> rw [hk] at hres
  · simp at hres
  · cases hw : w.googleFindPlace q near <;> rw [hw] at hres
    case thrown m => simp at hres
    case notOk => simp at hres
    case ok parsed =>
      cases parsed with
      | none => simp at hres
      | some l =>
        cases l with
        | nil => simp at hres
        | cons c t =>
          have hmem : c ∈ c :: t := List.mem_cons_self c t
          cases hp : isPreciseGoogle c
          · simp [hp] at hres
          · have hE := hok q near (c :: t) hw c hmem hp
            cases hac : acceptHit (parseGoogleFormattedAddress c.formatted_address) ec es
            · simp [hp, hac] at hres
            · simp [hp, hac] at hres
              subst hres
              simp only [googleEntryOK] at hE
              refine ⟨?_, hE.2.1, hE.2.2⟩
              show jsOr c.formatted_address (jsOr c.name q) ≠ ""
              rw [jsOr_fallback c.formatted_address c.name q hE.1]
              exact hE.1

theorem strictResolve_hit {env : Env} {w : World} {q : String}
    {near : Option (JNum × JNum)} {ec es : Option String} {h : PreciseHit}
    {tr : List (String × String)}
    (hs : strictResolve env w q near ec es = .ok (some h, tr)) :
    fromGoogleFindPlace env w q near ec es = .ok (some h) ∨
      fromGeoapify env w q near ec es = .ok (some h) ∨
      fromMapbox env w q near ec es = .ok (some h) ∨
      fromGoogleText env w q near ec es = .ok (some h) ∨
      fromNominatim env w q near ec es = .ok (some h) := by
  unfold strictResolve at hs
  repeat' split at hs
  all_goals cases hs
  · exact Or.inl (by assumption)
  · exact Or.inr (Or.inl (by assumption))
  · exact Or.inr (Or.inr (Or.inl (by assumption)))
  · exact Or.inr (Or.inr (Or.inr (Or.inl (by assumption))))
  · exact Or.inr (Or.inr (Or.inr (Or.inr (by assumption))))

theorem POST_hitB_inv {env : Env} {w : World} {req : Req} {h : PreciseHit}
    (hrun : POST env w req = (200, .hitB h)) :
    ∃ q0 tr, req.q = some q0 ∧
      strictResolve env w (jsTrim q0) (biasOf req.near)
        req.expectCity req.expectState = .ok (some h, tr) := by
  unfold POST at hrun
  repeat' split at hrun
  all_goals try simp at hrun
  all_goals repeat' split at hrun
  all_goals try simp at hrun
  subst hrun
  exact ⟨_, _, by assumption, by assumption⟩

theorem POST_candB_inv {env : Env} {w : World} {req : Req} {out : List Scored}
    (hrun : POST env w req = (200, .candB out)) :
    ∃ q0 list, req.q = some q0 ∧
      gatherCandidates env w (jsTrim q0) (biasOf req.near)
        req.expectCity req.expectState = .ok list ∧
      list.isEmpty = false ∧ out = list.take 8 := by
  unfold POST at hrun
  repeat' split at hrun
  all_goals try simp at hrun
  all_goals repeat' split at hrun
  all_goals try simp at hrun
  exact ⟨_, _, by assumption, by assumption, listEmpty_false (by assumption),
    hrun.symm⟩

/-- C8 (amended): the code enforces no range or non-emptiness check on
the Hit it returns — it copies the provider entry's fields verbatim.
Under the assumption that every precision-passing entry in the provider
responses carries a non-empty label and finite in-range coordinates
(`worldHitsOK`), every strict-mode 200 Hit satisfies the claimed
invariant. -/
theorem c8_hit_invariant (env : Env) (w : World) (req : Req) (h : PreciseHit)
    (hok : worldHitsOK w) (hrun : POST env w req = (200, .hitB h)) : hitOK h := by
  obtain ⟨q0, tr, hq, hs⟩ := POST_hitB_inv hrun
  obtain ⟨k1, k2, k3, k4, k5⟩ := hok
  rcases strictResolve_hit hs with h1 | h2 | h3 | h4 | h5
  · exact fromGoogleFindPlace_hitOK k1 h1
  · exact fromGeoapify_hitOK k3 h2
  · exact fromMapbox_hitOK k4 h3
  · exact fromGoogleText_hitOK k2 h4
  · exact fromNominatim_hitOK k5 h5

/-- C8 (counterexample): a Mapbox feature that passes the precision test
but has no `place_name` and an empty `center` array produces a 200 Hit
whose label is the empty string and whose coordinates are not numbers at
all — the claimed invariant fails on the code as written. -/
theorem c8_hit_invariant_counterexample :
    POST envMapboxOnly worldMapboxBare ⟨some "x", none, none, none, false⟩
      = (200, .hitB ⟨"mapbox", "", none, none, ⟨none, none, none, none⟩⟩) := by
  decide

/-- Witness for C8: the well-formed Mapbox world yields a well-formed
hit. -/
theorem c8_hit_invariant_witness : hitOK hitMapboxGlen :=
  c8_hit_invariant envMapboxOnly worldMapboxGlen
    ⟨some "x", none, none, none, false⟩ hitMapboxGlen
    (by
      unfold worldHitsOK
      refine ⟨?_, ?_, ?_, ?_, ?_⟩
      · intro q' b' l hw; exact nomatch hw
      · intro q' b' l hw; exact nomatch hw
      · intro q' b' l hw; exact nomatch hw
      · intro q' b' l hw
        injection hw with h1
        injection h1 with h2
        subst h2
        intro f hf hp
        have hf' : f = mapFeatGlen := by simpa using hf
        subst hf'
        exact ⟨by decide, ⟨⟨4086, 100⟩, by decide⟩, ⟨⟨-736, 10⟩, by decide⟩⟩
      · intro q' b' l hw; exact nomatch hw)
    (by decide)

/-! ### Candidate scoring (C4) -/

theorem scoreFrom_mem : ∀ (l : List Candidate) (i : Int) (s : Scored),
    s ∈ scoreFrom i l → ∃ (j : Nat) (c : Candidate),
      l.get? j = some c ∧ s = ⟨c, i - (j : Int)⟩ := by
  intro l
  induction l with
  | nil => intro i s h; simp [scoreFrom] at h
  | cons c rest ih =>
    intro i s h
    rw [scoreFrom] at h
    rcases List.mem_cons.mp h with h | h
    · exact ⟨0, c, rfl, by simpa using h⟩
    · obtain ⟨j, c', hg, hs⟩ := ih (i - 1) s h
      refine ⟨j + 1, c', by simpa using hg, ?_⟩
      rw [hs]
      congr 1
      push_cast
      omega

/-- C4 (amended): in candidate mode, when a region is expected every
candidate outside the supported country is removed; each surviving
candidate's score is its flatten-rank base (`100 - i` over the
provider-priority-ordered flattened list) plus the boosts of `boostFor`:
+30 for an exact region-code match, a *further* +20 for a normalized
region-name match (the two stack, unlike the claim's single +30
code-or-name boost), and +20 when the whole normalized expected city is
a substring of the candidate's normalized city (not a per-token
match). -/
theorem c4_candidate_scoring (flat : List Candidate) (ec es : Option String) :
    (truthy es = true →
      ∀ sc ∈ scorePipeline flat ec es, inUS sc.cand.country_code = true) ∧
    (∀ sc ∈ scorePipeline flat ec es, ∃ (j : Nat) (c : Candidate),
      flat.get? j = some c ∧
      sc = ⟨c, (100 - (j : Int))
              + boostFor c (normO ec) (upperS (es.getD ""))⟩) := by
  constructor
  · intro hes sc hsc
    unfold scorePipeline at hsc
    rw [hes] at hsc
    simp only [if_true] at hsc
    rw [List.mem_map] at hsc
    obtain ⟨s0, hs0, rfl⟩ := hsc
    exact (List.mem_filter.mp hs0).2
  · intro sc hsc
    unfold scorePipeline at hsc
    have hex : ∃ s0, s0 ∈ scoreFrom 100 flat ∧
        sc = ⟨s0.cand, s0.score
          + boostFor s0.cand (normO ec) (upperS (es.getD ""))⟩ := by
      cases hes : truthy es <;> rw [hes] at hsc <;>
        simp only [if_true, if_false, Bool.false_eq_true] at hsc <;>
        rw [List.mem_map] at hsc
      · obtain ⟨s0, h1, h2⟩ := hsc
        exact ⟨s0, h1, h2.symm⟩
      · obtain ⟨s0, h1, h2⟩ := hsc
        exact ⟨s0, (List.mem_filter.mp h1).1, h2.symm⟩
    obtain ⟨s0, hmem, hform⟩ := hex
    obtain ⟨j, c, hg, hs⟩ := scoreFrom_mem _ _ _ hmem
    refine ⟨j, c, hg, ?_⟩
    rw [hform, hs]

/-- C4 (counterexample): one Geoapify candidate whose `state_code` is
`NY` and whose `state` is `New York`, with `expectState = "NY"` and no
expected city, receives score `100 + 30 + 20 = 150` from the code (the
code and name boosts stack), while the claim's formula gives
`100 + 30 = 130`. -/
theorem c4_candidate_scoring_counterexample :
    gatherCandidates envGeoapifyOnly worldGeoNY "x" none none (some "NY")
      = .ok [⟨geoCandNY, 150⟩] ∧
      specC4Score geoCandNY 100 none (some "NY") = 130 := by
  refine ⟨by decide, by decide⟩

/-- Witness for C4: the scored candidate of the fixture decomposes as
base rank plus boosts. -/
theorem c4_candidate_scoring_witness :
    ∃ (j : Nat) (c : Candidate), [geoCandNY].get? j = some c ∧
      (⟨geoCandNY, 150⟩ : Scored)
        = ⟨c, (100 - (j : Int))
            + boostFor c (normO none) (upperS ((some "NY" : Option String).getD ""))⟩ :=
  (c4_candidate_scoring [geoCandNY] none (some "NY")).2
    ⟨geoCandNY, 150⟩ (by decide)

/-! ### Sorting and dedup lemmas (C3) -/

theorem mem_sortInsert {x c : Scored} : ∀ {l : List Scored},
    x ∈ sortInsert c l ↔ x = c ∨ x ∈ l := by
  intro l
  induction l with
  | nil => simp [sortInsert]
  | cons d rest ih =>
    rw [sortInsert]
    by_cases hcd : c.score > d.score
    · simp only [if_pos hcd, List.mem_cons]
    · simp only [if_neg hcd, List.mem_cons, ih]
      tauto

theorem sortInsert_sorted {c : Scored} : ∀ {l : List Scored},
    l.Pairwise (fun a b => b.score ≤ a.score) →
    (sortInsert c l).Pairwise (fun a b => b.score ≤ a.score) := by
  intro l
  induction l with
  | nil => intro _; simp [sortInsert]
  | cons d rest ih =>
    intro h
    obtain ⟨hd_all, hrest⟩ := List.pairwise_cons.mp h
    rw [sortInsert]
    by_cases hcd : c.score > d.score
    · rw [if_pos hcd]
      refine List.pairwise_cons.mpr ⟨?_, h⟩
      intro y hy
      rcases List.mem_cons.mp hy with rfl | hy
      · exact le_of_lt hcd
      · exact le_trans (hd_all y hy) (le_of_lt hcd)
    · rw [if_neg hcd]
      refine List.pairwise_cons.mpr ⟨?_, ih hrest⟩
      intro y hy
      rcases mem_sortInsert.mp hy with rfl | hy
      · exact not_lt.mp hcd
      · exact hd_all y hy

theorem sortScored_go_sorted : ∀ (l acc : List Scored),
    acc.Pairwise (fun a b => b.score ≤ a.score) →
    (l.foldl (fun acc c => sortInsert c acc) acc).Pairwise
      (fun a b => b.score ≤ a.score) := by
  intro l
  induction l with
  | nil => intro acc h; exact h
  | cons c rest ih => intro acc h; exact ih _ (sortInsert_sorted h)

theorem sortScored_sorted (l : List Scored) :
    (sortScored l).Pairwise (fun a b => b.score ≤ a.score) :=
  sortScored_go_sorted l [] (by simp)

theorem sortInsert_perm (c : Scored) : ∀ (l : List Scored),
    List.Perm (sortInsert c l) (c :: l) := by
  intro l
  induction l with
  | nil => exact List.Perm.refl _
  | cons d rest ih =>
    rw [sortInsert]
    by_cases hcd : c.score > d.score
    · rw [if_pos hcd]
    · rw [if_neg hcd]
      exact (ih.cons d).trans (List.Perm.swap c d rest)

theorem sortScored_go_perm : ∀ (l acc : List Scored),
    List.Perm (l.foldl (fun acc c => sortInsert c acc) acc) (acc ++ l) := by
  intro l
  induction l with
  | nil => intro acc; simp
  | cons c rest ih =>
    intro acc
    exact (ih _).trans
      (((sortInsert_perm c acc).append_right rest).trans List.perm_middle.symm)

theorem sortScored_perm (l : List Scored) : List.Perm (sortScored l) l := by
  simpa using sortScored_go_perm l []

theorem filter_sortInsert_pos {c : Scored} {s : Int} (hc : c.score = s) :
    ∀ {l : List Scored}, l.Pairwise (fun a b => b.score ≤ a.score) →
    (sortInsert c l).filter (fun x => x.score == s)
      = l.filter (fun x => x.score == s) ++ [c] := by
  intro l
  induction l with
  | nil => intro _; simp [sortInsert, List.filter_cons, hc]
  | cons d rest ih =>
    intro h
    obtain ⟨hd_all, hrest⟩ := List.pairwise_cons.mp h
    rw [sortInsert]
    by_cases hcd : c.score > d.score
    · rw [if_pos hcd]
      have hnil : (d :: rest).filter (fun x => x.score == s) = [] := by
        refine List.filter_eq_nil_iff.mpr ?_
        intro y hy
        have hlt : y.score < s := by
          rcases List.mem_cons.mp hy with rfl | hy
          · exact hc ▸ hcd
          · exact lt_of_le_of_lt (hd_all y hy) (hc ▸ hcd)
        simp only [beq_iff_eq]
        omega
      rw [List.filter_cons, hnil]
      simp [hc]
    · rw [if_neg hcd]
      rw [List.filter_cons, List.filter_cons, ih hrest]
      cases hd : (d.score == s) <;> simp [hd]

theorem filter_sortInsert_neg {c : Scored} {s : Int} (hc : ¬c.score = s) :
    ∀ {l : List Scored},
    (sortInsert c l).filter (fun x => x.score == s)
      = l.filter (fun x => x.score == s) := by
  intro l
  induction l with
  | nil => simp [sortInsert, List.filter_cons, hc]
  | cons d rest ih =>
    rw [sortInsert]
    by_cases hcd : c.score > d.score
    · rw [if_pos hcd]
      rw [List.filter_cons, List.filter_cons]
      simp [hc]
    · rw [if_neg hcd]
      rw [List.filter_cons, List.filter_cons, ih]

theorem filter_sortScored_go : ∀ (l acc : List Scored) (s : Int),
    acc.Pairwise (fun a b => b.score ≤ a.score) →
    ((l.foldl (fun acc c => sortInsert c acc) acc).filter (fun x => x.score == s))
      = acc.filter (fun x => x.score == s) ++ l.filter (fun x => x.score == s) := by
  intro l
  induction l with
  | nil => intro acc s _; simp
  | cons c rest ih =>
    intro acc s hacc
    have step := ih (sortInsert c acc) s (sortInsert_sorted hacc)
    by_cases hc : c.score = s
    · rw [List.foldl_cons, step, filter_sortInsert_pos hc hacc,
        List.filter_cons]
      simp [hc]
    · rw [List.foldl_cons, step, filter_sortInsert_neg hc, List.filter_cons]
      simp [hc]

theorem sortScored_stable (l : List Scored) (s : Int) :
    (sortScored l).filter (fun x => x.score == s)
      = l.filter (fun x => x.score == s) := by
  simpa using filter_sortScored_go l [] s (by simp)

theorem dedupe_sublist : ∀ (l : List Scored) (seen : List String),
    (dedupeScored seen l).Sublist l := by
  intro l
  induction l with
  | nil => intro seen; simp [dedupeScored]
  | cons c rest ih =>
    intro seen
    rw [dedupeScored]
    by_cases h : seen.contains (dedupKey c)
    · rw [if_pos h]
      exact (ih seen).cons c
    · rw [if_neg h]
      exact (ih (dedupKey c :: seen)).cons₂ c

theorem dedupe_key_not_seen : ∀ (l : List Scored) (seen : List String)
    (x : Scored), x ∈ dedupeScored seen l →
    seen.contains (dedupKey x) = false := by
  intro l
  induction l with
  | nil => intro seen x hx; simp [dedupeScored] at hx
  | cons c rest ih =>
    intro seen x hx
    rw [dedupeScored] at hx
    by_cases h : seen.contains (dedupKey c)
    · rw [if_pos h] at hx
      exact ih seen x hx
    · rw [if_neg h] at hx
      rcases List.mem_cons.mp hx with rfl | hx
      · exact Bool.eq_false_iff.mpr h
      · have step := ih (dedupKey c :: seen) x hx
        rw [List.contains_cons] at step
        exact (Bool.or_eq_false_iff.mp step).2

theorem dedupe_nodup_keys : ∀ (l : List Scored) (seen : List String),
    (dedupeScored seen l).Pairwise (fun a b => dedupKey a ≠ dedupKey b) := by
  intro l
  induction l with
  | nil => intro seen; simp [dedupeScored]
  | cons c rest ih =>
    intro seen
    rw [dedupeScored]
    by_cases h : seen.contains (dedupKey c)
    · rw [if_pos h]
      exact ih seen
    · rw [if_neg h]
      refine List.pairwise_cons.mpr ⟨?_, ih _⟩
      intro b hb heq
      have step := dedupe_key_not_seen rest (dedupKey c :: seen) b hb
      rw [List.contains_cons] at step
      have h1 := (Bool.or_eq_false_iff.mp step).1
      rw [heq] at h1
      simp at h1

theorem dedupe_max : ∀ (l : List Scored) (seen : List String),
    l.Pairwise (fun a b => b.score ≤ a.score) →
    ∀ x ∈ dedupeScored seen l, ∀ d ∈ l,
      dedupKey d = dedupKey x → d.score ≤ x.score := by
  intro l
  induction l with
  | nil => intro seen _ x hx; simp [dedupeScored] at hx
  | cons c rest ih =>
    intro seen hp x hx d hd hk
    obtain ⟨hd_all, hrest⟩ := List.pairwise_cons.mp hp
    rw [dedupeScored] at hx
    by_cases h : seen.contains (dedupKey c)
    · rw [if_pos h] at hx
      rcases List.mem_cons.mp hd with rfl | hd
      · exfalso
        have := dedupe_key_not_seen rest seen x hx
        rw [← hk] at this
        rw [h] at this
        exact Bool.true_eq_false.mp this
      · exact ih seen hrest x hx d hd hk
    · rw [if_neg h] at hx
      rcases List.mem_cons.mp hx with rfl | hx
      · rcases List.mem_cons.mp hd with rfl | hd
        · exact le_refl _
        · exact hd_all d hd
      · rcases List.mem_cons.mp hd with rfl | hd
        · exfalso
          have step := dedupe_key_not_seen rest (dedupKey d :: seen) x hx
          rw [List.contains_cons, hk] at step
          have := (Bool.or_eq_false_iff.mp step).1
          simp at this
        · exact ih (dedupKey c :: seen) hrest x hx d hd hk

/-- C3: every candidate-mode 200 response list has pairwise-distinct
dedup keys, is sorted in descending score order, and has at most eight
entries; moreover, relative to the scored pre-dedup list (the flattened
provider buckets after scoring), the entry kept for a dedup key is a
highest-scoring holder of that key, and for every score value the
response's entries with that score appear in exactly the pre-dedup
(provider-priority) order — the stable sort's tie-break. -/
theorem c3_candidate_list_invariants (env : Env) (w : World) (req : Req)
    (out : List Scored) (hrun : POST env w req = (200, .candB out)) :
    out.Pairwise (fun a b => dedupKey a ≠ dedupKey b) ∧
    out.Pairwise (fun a b => b.score ≤ a.score) ∧
    out.length ≤ 8 ∧
    ∃ q0 b1 b2 b3 b4 b5,
      req.q = some q0 ∧
      candidatesGoogleFindPlace env w (jsTrim q0) (biasOf req.near) = .ok b1 ∧
      candidatesGeoapify env w (jsTrim q0) (biasOf req.near) = .ok b2 ∧
      candidatesMapbox env w (jsTrim q0) (biasOf req.near) = .ok b3 ∧
      candidatesGoogleText env w (jsTrim q0) (biasOf req.near) = .ok b4 ∧
      candidatesNominatim env w (jsTrim q0) (biasOf req.near) = .ok b5 ∧
      (∀ x ∈ out, ∀ d ∈ scorePipeline (b1 ++ b2 ++ b3 ++ b4 ++ b5)
          req.expectCity req.expectState,
        dedupKey d = dedupKey x → d.score ≤ x.score) ∧
      (∀ s : Int, (out.filter (fun x => x.score == s)).Sublist
        ((scorePipeline (b1 ++ b2 ++ b3 ++ b4 ++ b5)
            req.expectCity req.expectState).filter (fun x => x.score == s))) := by
  obtain ⟨q0, list, hq, hg, hne, hout⟩ := POST_candB_inv hrun
  subst hout
  unfold gatherCandidates at hg
  cases hb1 : candidatesGoogleFindPlace env w (jsTrim q0) (biasOf req.near) <;>
    rw [hb1] at hg
  case thrown m => simp at hg
  case ok b1 =>
  cases hb2 : candidatesGeoapify env w (jsTrim q0) (biasOf req.near) <;>
    rw [hb2] at hg
  case thrown m => simp at hg
  case ok b2 =>
  cases hb3 : candidatesMapbox env w (jsTrim q0) (biasOf req.near) <;>
    rw [hb3] at hg
  case thrown m => simp at hg
  case ok b3 =>
  cases hb4 : candidatesGoogleText env w (jsTrim q0) (biasOf req.near) <;>
    rw [hb4] at hg
  case thrown m => simp at hg
  case ok b4 =>
  cases hb5 : candidatesNominatim env w (jsTrim q0) (biasOf req.near) <;>
    rw [hb5] at hg
  case thrown m => simp at hg
  case ok b5 =>
  simp only [Res.ok.injEq] at hg
  subst hg
  refine ⟨?_, ?_, ?_, q0, b1, b2, b3, b4, b5, hq, hb1, hb2, hb3, hb4, hb5, ?_, ?_⟩
  · exact List.Pairwise.sublist (List.take_sublist 8 _)
      (dedupe_nodup_keys (sortScored (scorePipeline (b1 ++ b2 ++ b3 ++ b4 ++ b5)
        req.expectCity req.expectState)) [])
  · exact List.Pairwise.sublist (List.take_sublist 8 _)
      (List.Pairwise.sublist (dedupe_sublist _ _)
        (sortScored_sorted _))
  · exact List.length_take_le 8 _
  · intro x hx d hd hk
    have hx' := (List.take_sublist 8 _).subset hx
    have hd' := (sortScored_perm (scorePipeline (b1 ++ b2 ++ b3 ++ b4 ++ b5)
      req.expectCity req.expectState)).symm.subset hd
    exact dedupe_max _ [] (sortScored_sorted _) x hx' d hd' hk
  · intro s
    rw [← sortScored_stable (scorePipeline (b1 ++ b2 ++ b3 ++ b4 ++ b5)
      req.expectCity req.expectState) s]
    exact ((List.take_sublist 8 _).filter _).trans ((dedupe_sublist _ _).filter _)

/-- Witness for C3: a world with two same-key Geoapify features yields a
single-entry deduplicated, sorted, capped response. -/
theorem c3_candidate_list_invariants_witness :
    ([⟨geoCandNY, 150⟩] : List Scored).Pairwise
        (fun a b => dedupKey a ≠ dedupKey b) ∧
      ([⟨geoCandNY, 150⟩] : List Scored).Pairwise
        (fun a b => b.score ≤ a.score) ∧
      ([⟨geoCandNY, 150⟩] : List Scored).length ≤ 8 :=
  let h := c3_candidate_list_invariants envGeoapifyOnly worldGeoDup
    ⟨some "x", none, none, some "NY", true⟩ [⟨geoCandNY, 150⟩] (by decide)
  ⟨h.1, h.2.1, h.2.2.1⟩
